import Mathlib

/-!
Verification development for the YAL bytecode compiler, stack VM and
macro-expansion machinery.  The Lean definitions below are a shallow
embedding of the Go sources: pure functions mirror the Go functions, the
mutable compiler / VM / environment state is passed explicitly, Go maps
are modelled as association lists with replace-on-insert, and Go's `int64`
arithmetic wraps modulo 2^64.  Go runtime panics (nil dereference, slice
index out of range, failed type assertion) are modelled as a distinguished
`goPanic` outcome, separate from the error values the Go code returns.
-/

namespace Yal

/-! ## Bytecode (bytecode/bytecode.go) -/

def OpPush : Nat := 0
def OpAdd : Nat := 1
def OpSub : Nat := 2
def OpMul : Nat := 3
def OpDiv : Nat := 4
def OpPushTrue : Nat := 5
def OpPushFalse : Nat := 6
def OpEqual : Nat := 7
def OpNotEqual : Nat := 8
def OpGT : Nat := 9
def OpNegateBoolean : Nat := 10
def OpNegateNumber : Nat := 11
def OpJumpIfFalse : Nat := 12
def OpJump : Nat := 13
def OpPushNull : Nat := 14
def OpSetGlobal : Nat := 15
def OpGetGlobal : Nat := 16
def OpArray : Nat := 17
def OpHash : Nat := 18
def OpIndex : Nat := 19
def OpCall : Nat := 20
def OpReturnValue : Nat := 21
def OpSetLocal : Nat := 22
def OpGetLocal : Nat := 23
def OpGetBuiltIn : Nat := 24
def OpGetFree : Nat := 25
def OpClosure : Nat := 26
def OpGetCurrentClosure : Nat := 27

/-- Big-endian bytes of a value truncated to uint16, as in
binary.BigEndian.PutUint16 applied to uint16(idx). -/
def u16bytes (n : Nat) : List Nat := [n % 65536 / 256, n % 256]

/-- Decoding counterpart: binary.BigEndian.Uint16 reading two bytes. -/
def readU16 (ins : List Nat) (pos : Nat) : Nat :=
  256 * ins.getD pos 0 + ins.getD (pos + 1) 0

/-- Make from bytecode.go: one byte of opcode followed by the encoded
operands.  The wide-operand opcodes take one u16 operand, OpCall /
OpGetBuiltIn / OpGetFree one u8 operand, OpClosure a u16 and a u8;
the remaining known opcodes take none (extra operands are ignored,
as in the Go switch whose no-operand case body is empty). -/
def Make (opCode : Nat) (operands : List Nat) : Except String (List Nat) :=
  if opCode = OpPush ∨ opCode = OpJumpIfFalse ∨ opCode = OpJump ∨
     opCode = OpSetGlobal ∨ opCode = OpGetGlobal ∨ opCode = OpArray ∨
     opCode = OpHash ∨ opCode = OpSetLocal ∨ opCode = OpGetLocal then
    match operands with
    | [idx] => .ok (opCode :: u16bytes idx)
    | _ => .error "needs one operand"
  else if opCode = OpAdd ∨ opCode = OpSub ∨ opCode = OpMul ∨ opCode = OpDiv ∨
          opCode = OpPushTrue ∨ opCode = OpPushFalse ∨ opCode = OpEqual ∨
          opCode = OpNotEqual ∨ opCode = OpGT ∨ opCode = OpNegateBoolean ∨
          opCode = OpNegateNumber ∨ opCode = OpPushNull ∨ opCode = OpIndex ∨
          opCode = OpReturnValue ∨ opCode = OpGetCurrentClosure then
    .ok [opCode]
  else if opCode = OpCall ∨ opCode = OpGetBuiltIn ∨ opCode = OpGetFree then
    match operands with
    | [c] => .ok [opCode, c % 256]
    | _ => .error "needs one operand"
  else if opCode = OpClosure then
    match operands with
    | [idx, freeCount] => .ok (opCode :: u16bytes idx ++ [freeCount % 256])
    | _ => .error "needs one operand"
  else .error ("unknown opcode: " ++ toString opCode)

/-! ## AST (ast package)

The Go AST is a family of structs behind the `ast.Node` interface; here it
is one inductive type.  Parser token data is dropped except where the code
observes it (`TokenLiteral`, see `tokenLiteral` below).  `nilNode` models a
nil `ast.Node` interface value (the macro-definition modifier returns one,
and `objToNode` returns one for unconvertible objects). -/

inductive Node where
  | program (stmts : List Node)
  | blockStmt (stmts : List Node)
  | letStmt (name : String) (right : Node)
  | returnStmt (value : Node)
  | exprStmt (e : Node)
  | intLit (value : Int)
  | strLit (value : String)
  | boolLit (value : Bool)
  | identifier (value : String)
  | prefixExp (op : String) (right : Node)
  | infixExp (left : Node) (op : String) (right : Node)
  | arrayLit (elems : List Node)
  | hashLit (pairs : List (Node × Node))
  | indexExp (left : Node) (index : Node)
  | ifElse (cond : Node) (cons : Node) (alt : Option Node)
  | fnLit (params : List String) (body : Node) (name : String)
  | macroLit (params : List String) (body : Node)
  | callExp (fn : Node) (args : List Node)
  | nilNode
  deriving Repr, Inhabited

/-- TokenLiteral of a node.  The parser stores the leading token's literal;
the evaluator only ever compares this against the string "quote", which can
match only for identifiers (for the remaining kinds the parser token is a
keyword, bracket or literal spelling, modelled by representative strings
that are never "quote"). -/
def tokenLiteral : Node → String
  | .identifier v => v
  | .intLit v => toString v
  | .strLit v => v
  | .boolLit b => cond b "true" "false"
  | .fnLit _ _ _ => "fn"
  | .macroLit _ _ => "macro-kw"
  | .ifElse _ _ _ => "if"
  | .letStmt _ _ => "let"
  | .returnStmt _ => "return"
  | _ => ""

/-! ## Object model (object package)

`Obj` mirrors `object.Object`.  `goNil` models a nil Go interface value
(an unset stack or globals slot, or pop on an empty stack).  Booleans and
Null are canonical singletons in Go (`object.TRUE`, `object.FALSE`,
`object.NULL`); since the VM and evaluator only ever materialise booleans
through those singletons, pointer identity on them coincides with value
equality of the `boolean` payload here. -/

inductive ObjType where
  | integerT | booleanT | nullT | returnValueT | errorT | functionT
  | compiledFunctionT | macroT | stringT | arrayT | hashT | quoteT
  | builtinT | closureT
  deriving Repr, DecidableEq

/-- Go string tag of each object type (object.go constants).  The
CLOSURE tag is modelled from the spec: the Closure declaration is not in
the sources, only its uses in vm.go. -/
def ObjType.goName : ObjType → String
  | .integerT => "INTEGER"
  | .booleanT => "BOOLEAN"
  | .nullT => "NULL"
  | .returnValueT => "RETURN_VALUE"
  | .errorT => "ERROR"
  | .functionT => "FUNCTION"
  | .compiledFunctionT => "COMPILED_FUNCTION"
  | .macroT => "MACRO"
  | .stringT => "STRING"
  | .arrayT => "ARRAY"
  | .hashT => "HASH"
  | .quoteT => "QUOTE"
  | .builtinT => "BUILTIN_FUNCTION"
  | .closureT => "CLOSURE"

/-- HashKey from object.go: a type tag paired with the canonical string
form of the value (the `Inspect` string). -/
structure HashKey where
  type : ObjType
  value : String
  deriving Repr, DecidableEq

/-- Modelled from the spec: `CompiledFunction` is "instructions +
local-count".  Its Go declaration (with the NumLocals field used by
vm.go and the compiler) is not among the sources; the two fields are
exactly the ones vm.go and the compiler read and write. -/
structure CompiledFn where
  instructions : List Nat
  numLocals : Nat
  deriving Repr, DecidableEq, Inhabited

mutual
inductive Obj where
  | integer (value : Int)
  | strObj (value : String)
  | boolean (value : Bool)
  | nullObj
  | arrayObj (elements : List Obj)
  | hashObj (pairs : List (HashKey × Obj))
  | compiledFunction (fn : CompiledFn)
  | closure (fn : CompiledFn) (freeStore : List Obj)
  | builtinFn (name : String)
  | returnValue (value : Obj)
  | errorObj (message : String)
  | quoteObj (node : Node)
  | macroObj (env : Env) (params : List String) (body : Node)
  | functionObj (env : Env) (params : List String) (body : Node)
  | goNil

/-- Environment from object.go: a local store with an optional outer
environment.  The Go store is a map; it is modelled as an association
list whose insert replaces an existing key. -/
inductive Env where
  | mk (store : List (String × Obj)) (outer : Option Env)
end

def TRUE : Obj := .boolean true
def FALSE : Obj := .boolean false
def NULL : Obj := .nullObj

/-- Type of an object (the Type() methods).  A nil interface has no
type: calling Type() on it would be a Go nil-pointer panic, hence none. -/
def Obj.typeOf : Obj → Option ObjType
  | .integer _ => some .integerT
  | .strObj _ => some .stringT
  | .boolean _ => some .booleanT
  | .nullObj => some .nullT
  | .arrayObj _ => some .arrayT
  | .hashObj _ => some .hashT
  | .compiledFunction _ => some .compiledFunctionT
  | .closure _ _ => some .closureT
  | .builtinFn _ => some .builtinT
  | .returnValue _ => some .returnValueT
  | .errorObj _ => some .errorT
  | .quoteObj _ => some .quoteT
  | .macroObj _ _ _ => some .macroT
  | .functionObj _ _ _ => some .functionT
  | .goNil => none

/-- IsTruthy from object/util.go: `switch obj case NULL, FALSE: false;
default: true`.  The comparison is interface identity against the two
singletons, so a nil interface and every non-NULL non-FALSE object are
truthy. -/
def IsTruthy : Obj → Bool
  | .nullObj => false
  | .boolean false => false
  | _ => true

def IsErrorValue : Obj → Bool
  | .errorObj _ => true
  | _ => false

def IsReturnValue : Obj → Bool
  | .returnValue _ => true
  | _ => false

def IsNull : Obj → Bool
  | .nullObj => true
  | _ => false

/-- HashKey() of a hashable object: Integer, String and Boolean implement
Hashable, producing (type tag, Inspect string); every other object (and a
nil interface) is not hashable. -/
def hashKeyOf : Obj → Option HashKey
  | .integer v => some ⟨.integerT, toString v⟩
  | .strObj s => some ⟨.stringT, s⟩
  | .boolean b => some ⟨.booleanT, cond b "true" "false"⟩
  | _ => none

/-! Association-list helpers standing in for Go maps: lookup of the first
binding, and insert that replaces an existing binding in place. -/

def assocGet {α : Type} (l : List (String × α)) (k : String) : Option α :=
  match l with
  | [] => none
  | (k', v) :: rest => if k' = k then some v else assocGet rest k

def assocSet {α : Type} (l : List (String × α)) (k : String) (v : α) :
    List (String × α) :=
  match l with
  | [] => [(k, v)]
  | (k', v') :: rest =>
      if k' = k then (k, v) :: rest else (k', v') :: assocSet rest k v

def hkGet (l : List (HashKey × Obj)) (k : HashKey) : Option Obj :=
  match l with
  | [] => none
  | (k', v) :: rest => if k' = k then some v else hkGet rest k

def hkSet (l : List (HashKey × Obj)) (k : HashKey) (v : Obj) :
    List (HashKey × Obj) :=
  match l with
  | [] => [(k, v)]
  | (k', v') :: rest =>
      if k' = k then (k, v) :: rest else (k', v') :: hkSet rest k v

/-- Modelled from the spec: the `builtinFunctions` map consulted by
Environment.Get is not among the sources; per the spec's builtin table it
holds len, first, last, rest, push and puts. -/
def builtinNames : List String := ["len", "first", "last", "rest", "push", "puts"]

/-- Environment.Get from object.go: local store, then outer chain, then
the builtin table, else an Error value naming the undefined variable. -/
def Env.get : Env → String → Obj
  | .mk store outer, name =>
    match assocGet store name with
    | some obj => obj
    | none =>
        match outer with
        | some o => o.get name
        | none =>
            if name ∈ builtinNames then Obj.builtinFn name
            else Obj.errorObj ("Undefined variable \"" ++ name ++ "\"")

/-- Environment.Set: writes into the local store only. -/
def Env.set : Env → String → Obj → Env
  | .mk store outer, name, value => .mk (assocSet store name value) outer

def NewEnvironment (outer : Option Env) : Env := .mk [] outer

/-! ## Symbol table (compiler, src/unnamed/part_002 final version) -/

inductive SymbolScope where
  | global | local | builtin | free | function
  deriving Repr, DecidableEq

structure Symbol where
  name : String
  index : Nat
  scope : SymbolScope
  deriving Repr, DecidableEq

/-- SymbolTable: local store (a Go map, association list here), optional
outer table, and the ordered free-symbol list. -/
inductive SymbolTable where
  | mk (store : List (String × Symbol)) (outer : Option SymbolTable)
       (freeSymbols : List Symbol)

def SymbolTable.store : SymbolTable → List (String × Symbol)
  | .mk s _ _ => s

def SymbolTable.outer : SymbolTable → Option SymbolTable
  | .mk _ o _ => o

def SymbolTable.freeSymbols : SymbolTable → List Symbol
  | .mk _ _ f => f

def NewSymbolTable (outer : Option SymbolTable) : SymbolTable := .mk [] outer []

/-- The fixed builtin symbol table (indices 0..5). -/
def builtInSymbols (name : String) : Option Symbol :=
  if name = "len" then some ⟨"len", 0, .builtin⟩
  else if name = "first" then some ⟨"first", 1, .builtin⟩
  else if name = "last" then some ⟨"last", 2, .builtin⟩
  else if name = "rest" then some ⟨"rest", 3, .builtin⟩
  else if name = "push" then some ⟨"push", 4, .builtin⟩
  else if name = "puts" then some ⟨"puts", 5, .builtin⟩
  else none

/-- Define: an existing name returns its stored symbol unchanged; a new
name gets index = current store size and GLOBAL or LOCAL scope depending
on whether this table has an outer. -/
def SymbolTable.define (t : SymbolTable) (identifier : String) :
    Symbol × SymbolTable :=
  match assocGet t.store identifier with
  | some symbol => (symbol, t)
  | none =>
      let scope : SymbolScope := match t.outer with
        | none => .global
        | some _ => .local
      let symbol : Symbol := ⟨identifier, t.store.length, scope⟩
      (symbol, .mk (assocSet t.store identifier symbol) t.outer t.freeSymbols)

/-- DefineFunctionSymbol: unconditionally stores a FUNCTION-scope symbol
with index = current store size. -/
def SymbolTable.defineFunctionSymbol (t : SymbolTable) (name : String) :
    Symbol × SymbolTable :=
  let symbol : Symbol := ⟨name, t.store.length, .function⟩
  (symbol, .mk (assocSet t.store name symbol) t.outer t.freeSymbols)

/-- defineFree: appends the outer symbol to freeSymbols and stores a FREE
symbol under the same name in the local store. -/
def SymbolTable.defineFree (t : SymbolTable) (symbol : Symbol) :
    Symbol × SymbolTable :=
  let fs := t.freeSymbols ++ [symbol]
  let freeSymbol : Symbol := ⟨symbol.name, fs.length - 1, .free⟩
  (freeSymbol, .mk (assocSet t.store freeSymbol.name freeSymbol) t.outer fs)

/-- Lookup: current store, else outer chain (promoting a LOCAL or FREE
outer result into this table as a FREE symbol), else the builtin table at
the root.  Promotion mutates tables along the chain, so the updated table
is returned alongside the result. -/
def SymbolTable.lookup : SymbolTable → String → Option Symbol × SymbolTable
  | t@(.mk store outer free), identifier =>
    match assocGet store identifier with
    | some symbol => (some symbol, t)
    | none =>
        match outer with
        | some o =>
            let (res, o') := o.lookup identifier
            let t' : SymbolTable := .mk store (some o') free
            match res with
            | some symbol =>
                if symbol.scope = .local ∨ symbol.scope = .free then
                  let (fs, t'') := t'.defineFree symbol
                  (some fs, t'')
                else (some symbol, t')
            | none => (none, t')
        | none =>
            match builtInSymbols identifier with
            | some symbol => (some symbol, t)
            | none => (none, t)

/-- len() of a symbol table: the size of the local store map. -/
def SymbolTable.len (t : SymbolTable) : Nat := t.store.length

/-! ## Compiler (src/unnamed/part_001, final version)

The Go compiler mutates a stack of compilation scopes, a constant pool and
the current symbol table pointer; that state is threaded explicitly.  The
scope stack is a list whose head is the active scope (Go keeps
activeScopeIdx pointing at the last element). -/

structure CompilationScope where
  instructions : List Nat
  lastAddedInsOffset : Nat
  deriving Repr, DecidableEq, Inhabited

def NewCompilationScope : CompilationScope := ⟨[], 0⟩

structure CompilerState where
  scopes : List CompilationScope
  constantPool : List Obj
  symbolTable : SymbolTable

def NewCompiler : CompilerState :=
  ⟨[NewCompilationScope], [], NewSymbolTable none⟩

def CompilerState.activeScope (st : CompilerState) : CompilationScope :=
  st.scopes.headD NewCompilationScope

def CompilerState.setActiveScope (st : CompilerState) (sc : CompilationScope) :
    CompilerState :=
  { st with scopes := sc :: st.scopes.tail }

/-- addInstruction: append to the active scope, remembering the offset the
instruction was inserted at. -/
def CompilerState.addInstruction (st : CompilerState) (ins : List Nat) :
    CompilerState :=
  let sc := st.activeScope
  st.setActiveScope ⟨sc.instructions ++ ins, sc.instructions.length⟩

/-- emit: Make the instruction and append it.  Go's emit returns Make's
error, but every call site of emit discards that return value, so a failed
Make leaves the state unchanged. -/
def CompilerState.emit (st : CompilerState) (op : Nat) (operands : List Nat) :
    CompilerState :=
  match Make op operands with
  | .ok ins => st.addInstruction ins
  | .error _ => st

/-- Go's copy(dst[offset:], src): writes min(len(dst)-offset, len(src))
elements, never growing dst. -/
def listCopyAt (l : List Nat) (offset : Nat) (src : List Nat) : List Nat :=
  l.take offset ++ src.take (l.length - offset) ++ l.drop (offset + src.length)

def CompilerState.modifyInstruction (st : CompilerState) (offset : Nat)
    (newInstruction : List Nat) : CompilerState :=
  let sc := st.activeScope
  st.setActiveScope
    ⟨listCopyAt sc.instructions offset newInstruction, sc.lastAddedInsOffset⟩

def CompilerState.enterScope (st : CompilerState) : CompilerState :=
  { st with scopes := NewCompilationScope :: st.scopes }

def CompilerState.exitScope (st : CompilerState) : CompilerState :=
  { st with scopes := st.scopes.tail }

/-- addConstant: append and return the index the constant was stored at. -/
def CompilerState.addConstant (st : CompilerState) (obj : Obj) :
    Nat × CompilerState :=
  (st.constantPool.length, { st with constantPool := st.constantPool ++ [obj] })

def CompilerState.loadSymbol (st : CompilerState) (symbol : Symbol) :
    CompilerState :=
  match symbol.scope with
  | .global => st.emit OpGetGlobal [symbol.index]
  | .local => st.emit OpGetLocal [symbol.index]
  | .builtin => st.emit OpGetBuiltIn [symbol.index]
  | .free => st.emit OpGetFree [symbol.index]
  | .function => st.emit OpGetCurrentClosure []

def CompilerState.storeSymbol (st : CompilerState) (symbol : Symbol) :
    CompilerState :=
  if symbol.scope = .global then st.emit OpSetGlobal [symbol.index]
  else st.emit OpSetLocal [symbol.index]

mutual

/-- Compile from src/unnamed/part_001: walks the AST, emitting into the
active scope.  Hash-literal pairs are a Go map iterated in unspecified
order; the model iterates the pair list in order (the claims proved below
do not depend on the order).  Node kinds outside the Go switch (macro
literals, nil) compile to nothing, as in Go.  The fuel argument is a
model artifact making the recursion structural (`none` = fuel exhausted);
any fuel larger than the AST depth reproduces the Go recursion, which
always terminates. -/
def Compile : Nat → Node → CompilerState → Option (Except String CompilerState)
  | 0, _, _ => none
  | fuel + 1, node, st =>
    match node with
    | .program stmts => CompileList fuel stmts st
    | .blockStmt stmts => CompileList fuel stmts st
    | .letStmt name (.fnLit params body fname) =>
        let (symbol, table2) := st.symbolTable.define name
        let st1 := { st with symbolTable := table2 }
        match Compile fuel (.fnLit params body name) st1 with
        | none => none
        | some (.error e) => some (.error e)
        | some (.ok st2) =>
            let _ := fname
            some (.ok (st2.storeSymbol symbol))
    | .letStmt name right =>
        match Compile fuel right st with
        | none => none
        | some (.error e) => some (.error e)
        | some (.ok st1) =>
            let (symbol, table2) := st1.symbolTable.define name
            some (.ok (CompilerState.storeSymbol
              { st1 with symbolTable := table2 } symbol))
    | .returnStmt v =>
        match Compile fuel v st with
        | none => none
        | some (.error e) => some (.error e)
        | some (.ok st1) => some (.ok (st1.emit OpReturnValue []))
    | .exprStmt e => Compile fuel e st
    | .ifElse cond cons alt =>
        match Compile fuel cond st with
        | none => none
        | some (.error e) => some (.error e)
        | some (.ok st1) =>
          let st2 := st1.emit OpJumpIfFalse [9999]
          let conditionalJumpOffset := st2.activeScope.lastAddedInsOffset
          match Compile fuel cons st2 with
          | none => none
          | some (.error e) => some (.error e)
          | some (.ok st3) =>
            let st4 := st3.emit OpJump [9999]
            let jumpOffset := st4.activeScope.lastAddedInsOffset
            let newCondIns :=
              match Make OpJumpIfFalse [st4.activeScope.instructions.length] with
              | .ok ins => ins
              | .error _ => []
            let st5 := st4.modifyInstruction conditionalJumpOffset newCondIns
            let st6r : Option (Except String CompilerState) :=
              match alt with
              | some a => Compile fuel a st5
              | none => some (.ok (st5.emit OpPushNull []))
            match st6r with
            | none => none
            | some (.error e) => some (.error e)
            | some (.ok st6) =>
              let newJumpIns :=
                match Make OpJump [st6.activeScope.instructions.length] with
                | .ok ins => ins
                | .error _ => []
              some (.ok (st6.modifyInstruction jumpOffset newJumpIns))
    | .arrayLit elems =>
        match CompileList fuel elems st with
        | none => none
        | some (.error e) => some (.error e)
        | some (.ok st1) => some (.ok (st1.emit OpArray [elems.length]))
    | .hashLit pairs =>
        match CompilePairs fuel pairs st with
        | none => none
        | some (.error e) => some (.error e)
        | some (.ok st1) => some (.ok (st1.emit OpHash [pairs.length]))
    | .indexExp left index =>
        match Compile fuel left st with
        | none => none
        | some (.error e) => some (.error e)
        | some (.ok st1) =>
          match Compile fuel index st1 with
          | none => none
          | some (.error e) => some (.error e)
          | some (.ok st2) => some (.ok (st2.emit OpIndex []))
    | .fnLit params body name =>
        let st1 := st.enterScope
        let localTable0 := NewSymbolTable (some st1.symbolTable)
        let st2 := { st1 with symbolTable := localTable0 }
        let st3 := params.foldl
          (fun s p => { s with symbolTable := (s.symbolTable.define p).2 }) st2
        let st4 :=
          if name ≠ "" then
            { st3 with
              symbolTable := (st3.symbolTable.defineFunctionSymbol name).2 }
          else st3
        match Compile fuel body st4 with
        | none => none
        | some (.error e) => some (.error e)
        | some (.ok st5) =>
          let st6 :=
            if st5.activeScope.instructions.length = 0 then
              (st5.emit OpPushNull []).emit OpReturnValue []
            else st5
          let st7 :=
            if st6.activeScope.instructions.getD st6.activeScope.lastAddedInsOffset 0
                ≠ OpReturnValue then
              st6.emit OpReturnValue []
            else st6
          let compiledInstructions := st7.activeScope.instructions
          let localTable := st7.symbolTable
          let st8 :=
            { st7 with symbolTable := localTable.outer.getD (NewSymbolTable none) }
          let st9 := st8.exitScope
          let fnObj := Obj.compiledFunction
            ⟨compiledInstructions, localTable.len⟩
          let (idx, st10) := st9.addConstant fnObj
          let st11 := localTable.freeSymbols.foldl
            (fun s sym => s.loadSymbol sym) st10
          some (.ok (st11.emit OpClosure [idx, localTable.freeSymbols.length]))
    | .callExp fn args =>
        match Compile fuel fn st with
        | none => none
        | some (.error e) => some (.error e)
        | some (.ok st1) =>
          match CompileList fuel args st1 with
          | none => none
          | some (.error e) => some (.error e)
          | some (.ok st2) => some (.ok (st2.emit OpCall [args.length]))
    | .prefixExp op right =>
        match Compile fuel right st with
        | none => none
        | some (.error e) => some (.error e)
        | some (.ok st1) =>
          if op = "!" then some (.ok (st1.emit OpNegateBoolean []))
          else if op = "-" then some (.ok (st1.emit OpNegateNumber []))
          else some (.error ("unknown operator " ++ op))
    | .infixExp left op right =>
        if op = "<" then
          match Compile fuel right st with
          | none => none
          | some (.error e) => some (.error e)
          | some (.ok st1) =>
            match Compile fuel left st1 with
            | none => none
            | some (.error e) => some (.error e)
            | some (.ok st2) => some (.ok (st2.emit OpGT []))
        else
          match Compile fuel left st with
          | none => none
          | some (.error e) => some (.error e)
          | some (.ok st1) =>
            match Compile fuel right st1 with
            | none => none
            | some (.error e) => some (.error e)
            | some (.ok st2) =>
              if op = "+" then some (.ok (st2.emit OpAdd []))
              else if op = "-" then some (.ok (st2.emit OpSub []))
              else if op = "*" then some (.ok (st2.emit OpMul []))
              else if op = "/" then some (.ok (st2.emit OpDiv []))
              else if op = "==" then some (.ok (st2.emit OpEqual []))
              else if op = "!=" then some (.ok (st2.emit OpNotEqual []))
              else if op = ">" then some (.ok (st2.emit OpGT []))
              else some (.error ("unknown operator " ++ op))
    | .identifier v =>
        let (res, table2) := st.symbolTable.lookup v
        match res with
        | none => some (.error ("unknown identifier " ++ v))
        | some symbol =>
            some (.ok (CompilerState.loadSymbol
              { st with symbolTable := table2 } symbol))
    | .intLit v =>
        let (idx, st1) := st.addConstant (.integer v)
        some (.ok (st1.emit OpPush [idx]))
    | .strLit s =>
        let (idx, st1) := st.addConstant (.strObj s)
        some (.ok (st1.emit OpPush [idx]))
    | .boolLit b =>
        if b then some (.ok (st.emit OpPushTrue []))
        else some (.ok (st.emit OpPushFalse []))
    | .macroLit _ _ => some (.ok st)
    | .nilNode => some (.ok st)

def CompileList : Nat → List Node → CompilerState →
    Option (Except String CompilerState)
  | 0, _, _ => none
  | _ + 1, [], st => some (.ok st)
  | fuel + 1, stmt :: rest, st =>
      match Compile fuel stmt st with
      | none => none
      | some (.error e) => some (.error e)
      | some (.ok st1) => CompileList fuel rest st1

/-- HashLiteral pair loop: for each pair compile the VALUE, then the KEY. -/
def CompilePairs : Nat → List (Node × Node) → CompilerState →
    Option (Except String CompilerState)
  | 0, _, _ => none
  | _ + 1, [], st => some (.ok st)
  | fuel + 1, (k, v) :: rest, st =>
      match Compile fuel v st with
      | none => none
      | some (.error e) => some (.error e)
      | some (.ok st1) =>
        match Compile fuel k st1 with
        | none => none
        | some (.error e) => some (.error e)
        | some (.ok st2) => CompilePairs fuel rest st2

end

/-- ByteCode: the compiler output (active-scope instructions plus the
constant pool). -/
structure ByteCode where
  instructions : List Nat
  constantPool : List Obj

def CompilerState.output (st : CompilerState) : ByteCode :=
  ⟨st.activeScope.instructions, st.constantPool⟩

/-! ## Stack VM (vm/vm.go, final version)

The VM state carries the frame stack (head = active frame), the constant
pool, the globals array and the data stack; the two arrays are modelled as
total functions from index to `Obj`, initialised to the nil interface.
Go runtime panics (slice index out of range, failed type assertion, nil
dereference) are a `goPanic` outcome, distinct from the errors Run
returns. -/

def StackSize : Nat := 2048
def GlobalsSize : Nat := 65536
def FramesSize : Nat := 1024

/-- Single quote character, used in Go error message literals. -/
def sq : String := String.singleton (Char.ofNat 39)

structure Frame where
  closureFn : CompiledFn
  closureFree : List Obj
  ip : Nat
  bp : Nat

def Frame.instructions (f : Frame) : List Nat := f.closureFn.instructions

structure VMState where
  frames : List Frame
  constantPool : List Obj
  globals : Nat → Obj
  stack : Nat → Obj
  sp : Nat

/-- NewStackVM: a synthetic main closure wraps the top-level instructions
(its NumLocals is the Go zero value 0), installed as the only frame with
bp = 0 and ip = 0. -/
def NewStackVM (instructions : List Nat) (constantPool : List Obj) : VMState :=
  { frames := [⟨⟨instructions, 0⟩, [], 0, 0⟩],
    constantPool := constantPool,
    globals := fun _ => Obj.goNil,
    stack := fun _ => Obj.goNil,
    sp := 0 }

inductive VMErr where
  | fail (msg : String)
  | goPanic (msg : String)
  deriving Repr, DecidableEq

/-- push from vm.go: writes at sp and increments it, or reports overflow
when sp has reached the stack size.  Whether that report reaches Run's
caller is up to push's call sites. -/
def VMState.push (svm : VMState) (obj : Obj) : Except String VMState :=
  if svm.sp ≥ StackSize then .error "stack overflow"
  else .ok { svm with
              stack := fun j => if j = svm.sp then obj else svm.stack j,
              sp := svm.sp + 1 }

/-- Every call site of push inside Run and its helpers discards push's
error return, so an overflowing push leaves the state unchanged and
execution continues. -/
def VMState.pushDrop (svm : VMState) (obj : Obj) : VMState :=
  match svm.push obj with
  | .ok s => s
  | .error _ => svm

/-- pop: returns the nil interface on an empty stack, else the top value,
decrementing sp (the slot itself is not cleared). -/
def VMState.pop (svm : VMState) : Obj × VMState :=
  if svm.sp = 0 then (Obj.goNil, svm)
  else (svm.stack (svm.sp - 1), { svm with sp := svm.sp - 1 })

def VMState.top (svm : VMState) : Obj :=
  if svm.sp = 0 then Obj.goNil else svm.stack (svm.sp - 1)

def VMState.withHeadIp (svm : VMState) (ip : Nat) : VMState :=
  match svm.frames with
  | [] => svm
  | f :: rest => { svm with frames := { f with ip := ip } :: rest }

/-- popN: pops n values, returning them in stack order (the first pop,
the old top, goes last), as the Go loops filling objs[count-1] downward
and freeStore[freeCount-1-i] / args[argsCount-1-i] do. -/
def VMState.popN (svm : VMState) : Nat → List Obj × VMState
  | 0 => ([], svm)
  | n + 1 =>
      let (obj, s1) := svm.pop
      let (objs, s2) := s1.popN n
      (objs ++ [obj], s2)

/-- Go int64 arithmetic wraps modulo 2^64 (two's complement). -/
def wrap64 (n : Int) : Int := (n + 2 ^ 63) % 2 ^ 64 - 2 ^ 63

def getBooleanObject (boolValue : Bool) : Obj :=
  if boolValue then TRUE else FALSE

/-- Go's %T rendering of the dynamic type, used by the not-callable
error. -/
def goTypeName : Obj → String
  | .integer _ => "*object.Integer"
  | .strObj _ => "*object.String"
  | .boolean _ => "*object.Boolean"
  | .nullObj => "*object.Null"
  | .arrayObj _ => "*object.Array"
  | .hashObj _ => "*object.Hash"
  | .compiledFunction _ => "*object.CompiledFunction"
  | .closure _ _ => "*object.Closure"
  | .builtinFn _ => "*object.BuiltinFunction"
  | .returnValue _ => "*object.ReturnValue"
  | .errorObj _ => "*object.Error"
  | .quoteObj _ => "*object.Quote"
  | .macroObj _ _ _ => "*object.Macro"
  | .functionObj _ _ _ => "*object.Function"
  | .goNil => "<nil>"

/-! Builtin functions from object/builtin.go.  `puts` prints its
arguments (a side effect outside this model) and returns NULL; only its
return value is modelled.  Go len() on a string counts bytes. -/

def applyBuiltin (name : String) (args : List Obj) : Obj :=
  if name = "len" then
    match args with
    | [.strObj s] => .integer s.utf8ByteSize
    | [.arrayObj elems] => .integer elems.length
    | [arg] =>
        .errorObj ("len(): type " ++ ((arg.typeOf).map ObjType.goName).getD "<nil>"
          ++ " not supported")
    | _ => .errorObj ("len() requires 1 argument. got " ++ toString args.length)
  else if name = "first" then
    match args with
    | [.arrayObj elems] =>
        match elems with
        | [] => .errorObj "empty array"
        | e :: _ => e
    | [arg] =>
        .errorObj ("first(): type " ++ ((arg.typeOf).map ObjType.goName).getD "<nil>"
          ++ " not supported")
    | _ => .errorObj ("first() requires 1 argument. got " ++ toString args.length)
  else if name = "last" then
    match args with
    | [.arrayObj elems] =>
        match elems.getLast? with
        | none => .errorObj "empty array"
        | some e => e
    | [arg] =>
        .errorObj ("last(): type " ++ ((arg.typeOf).map ObjType.goName).getD "<nil>"
          ++ " not supported")
    | _ => .errorObj ("last() requires 1 argument. got " ++ toString args.length)
  else if name = "rest" then
    match args with
    | [.arrayObj elems] =>
        match elems with
        | [] => .errorObj "empty array"
        | _ :: rest => .arrayObj rest
    | [arg] =>
        .errorObj ("rest(): type " ++ ((arg.typeOf).map ObjType.goName).getD "<nil>"
          ++ " not supported")
    | _ => .errorObj ("rest() requires 1 argument. got " ++ toString args.length)
  else if name = "push" then
    match args with
    | [.arrayObj elems, x] => .arrayObj (elems ++ [x])
    | [arg, _] =>
        .errorObj ("push(): type " ++ ((arg.typeOf).map ObjType.goName).getD "<nil>"
          ++ " not supported")
    | _ => .errorObj ("push() requires 2 arguments. got " ++ toString args.length)
  else if name = "puts" then NULL
  else .errorObj ("unknown builtin " ++ name)

namespace Vm

/-- executeNegateNumberUnaryOperation: integers negate (wrapping), other
types are an error naming the operand type. -/
def executeNegateNumberUnaryOperation (svm : VMState) (operand : Obj) :
    Except VMErr VMState :=
  match operand with
  | .integer i => .ok (svm.pushDrop (.integer (wrap64 (-i))))
  | .goNil => .error (.goPanic "nil Type()")
  | _ =>
      .error (.fail ("invalid type " ++ ((operand.typeOf).map ObjType.goName).getD ""
        ++ " with operator " ++ sq ++ "-" ++ sq))

def executeNegateBooleanUnaryOperation (svm : VMState) (operand : Obj) :
    Except VMErr VMState :=
  if IsTruthy operand then .ok (svm.pushDrop FALSE)
  else .ok (svm.pushDrop TRUE)

/-- executeUnaryOperation: pops the operand first; an opcode outside the
two negate opcodes falls through returning nil (operand stays popped). -/
def executeUnaryOperation (svm : VMState) (opcode : Nat) :
    Except VMErr VMState :=
  let (operand, s1) := svm.pop
  if opcode = OpNegateNumber then executeNegateNumberUnaryOperation s1 operand
  else if opcode = OpNegateBoolean then
    executeNegateBooleanUnaryOperation s1 operand
  else .ok s1

def executeAddBinaryOperation (svm : VMState) (left right : Obj) :
    Except VMErr VMState :=
  match left with
  | .integer l =>
      match right with
      | .integer r => .ok (svm.pushDrop (.integer (wrap64 (l + r))))
      | _ => .error (.goPanic "interface conversion")
  | .strObj l =>
      match right with
      | .strObj r => .ok (svm.pushDrop (.strObj (l ++ r)))
      | _ => .error (.goPanic "interface conversion")
  | _ =>
      .error (.fail ("unsupported operand type " ++ ((left.typeOf).map ObjType.goName).getD ""
        ++ " with " ++ sq ++ "+" ++ sq))

def executeSubBinaryOperation (svm : VMState) (left right : Obj) :
    Except VMErr VMState :=
  match left with
  | .integer l =>
      match right with
      | .integer r => .ok (svm.pushDrop (.integer (wrap64 (l - r))))
      | _ => .error (.goPanic "interface conversion")
  | _ =>
      .error (.fail ("unsupported operand type " ++ ((left.typeOf).map ObjType.goName).getD ""
        ++ " with " ++ sq ++ "-" ++ sq))

def executeMulBinaryOperation (svm : VMState) (left right : Obj) :
    Except VMErr VMState :=
  match left with
  | .integer l =>
      match right with
      | .integer r => .ok (svm.pushDrop (.integer (wrap64 (l * r))))
      | _ => .error (.goPanic "interface conversion")
  | _ =>
      .error (.fail ("unsupported operand type " ++ ((left.typeOf).map ObjType.goName).getD ""
        ++ " with " ++ sq ++ "*" ++ sq))

/-- Division: int64 truncated division; a zero divisor is an error.  Go
defines MinInt64 / -1 as wrapping, modelled by wrap64. -/
def executeDivBinaryOperation (svm : VMState) (left right : Obj) :
    Except VMErr VMState :=
  match left with
  | .integer l =>
      match right with
      | .integer r =>
          if r = 0 then .error (.fail "division by zero")
          else .ok (svm.pushDrop (.integer (wrap64 (l.tdiv r))))
      | _ => .error (.goPanic "interface conversion")
  | _ =>
      .error (.fail ("unsupported operand type " ++ ((left.typeOf).map ObjType.goName).getD ""
        ++ " with " ++ sq ++ "/" ++ sq))

/-- executeEqualsBinaryOperation: Integers and Strings compare by value;
Booleans by pointer identity of the canonical singletons (hence by the
payload bool here); every other operand type — including Null — falls to
the default branch and is an unsupported-operand error. -/
def executeEqualsBinaryOperation (svm : VMState) (left right : Obj) :
    Except VMErr VMState :=
  match left with
  | .integer l =>
      match right with
      | .integer r => .ok (svm.pushDrop (getBooleanObject (decide (l = r))))
      | _ => .error (.goPanic "interface conversion")
  | .strObj l =>
      match right with
      | .strObj r => .ok (svm.pushDrop (getBooleanObject (decide (l = r))))
      | _ => .error (.goPanic "interface conversion")
  | .boolean l =>
      match right with
      | .boolean r => .ok (svm.pushDrop (getBooleanObject (decide (l = r))))
      | _ => .ok (svm.pushDrop (getBooleanObject false))
  | _ =>
      .error (.fail ("unsupported operand type " ++ ((left.typeOf).map ObjType.goName).getD ""
        ++ " with " ++ sq ++ "==" ++ sq))

def executeNotEqualsBinaryOperation (svm : VMState) (left right : Obj) :
    Except VMErr VMState :=
  match left with
  | .integer l =>
      match right with
      | .integer r => .ok (svm.pushDrop (getBooleanObject (decide (l ≠ r))))
      | _ => .error (.goPanic "interface conversion")
  | .strObj l =>
      match right with
      | .strObj r => .ok (svm.pushDrop (getBooleanObject (decide (l ≠ r))))
      | _ => .error (.goPanic "interface conversion")
  | .boolean l =>
      match right with
      | .boolean r => .ok (svm.pushDrop (getBooleanObject (decide (l ≠ r))))
      | _ => .ok (svm.pushDrop (getBooleanObject true))
  | _ =>
      .error (.fail ("unsupported operand type " ++ ((left.typeOf).map ObjType.goName).getD ""
        ++ " with " ++ sq ++ "!=" ++ sq))

def executeGreaterThanBinaryOperation (svm : VMState) (left right : Obj) :
    Except VMErr VMState :=
  match left with
  | .integer l =>
      match right with
      | .integer r => .ok (svm.pushDrop (getBooleanObject (decide (l > r))))
      | _ => .error (.goPanic "interface conversion")
  | _ =>
      .error (.fail ("unsupported operand type " ++ ((left.typeOf).map ObjType.goName).getD ""
        ++ " with " ++ sq ++ ">" ++ sq))

/-- executeBinaryOperation: pops right then left, rejects mismatched
operand types, then dispatches on the opcode.  Calling Type() on a nil
interface operand would be a Go panic. -/
def executeBinaryOperation (svm : VMState) (opcode : Nat) :
    Except VMErr VMState :=
  let (right, s1) := svm.pop
  let (left, s2) := s1.pop
  match left.typeOf, right.typeOf with
  | none, _ => .error (.goPanic "nil Type()")
  | _, none => .error (.goPanic "nil Type()")
  | some lt, some rt =>
      if lt ≠ rt then
        .error (.fail ("incompatible types: " ++ lt.goName ++ " and " ++ rt.goName))
      else if opcode = OpAdd then executeAddBinaryOperation s2 left right
      else if opcode = OpSub then executeSubBinaryOperation s2 left right
      else if opcode = OpMul then executeMulBinaryOperation s2 left right
      else if opcode = OpDiv then executeDivBinaryOperation s2 left right
      else if opcode = OpEqual then executeEqualsBinaryOperation s2 left right
      else if opcode = OpNotEqual then
        executeNotEqualsBinaryOperation s2 left right
      else if opcode = OpGT then executeGreaterThanBinaryOperation s2 left right
      else .ok s2

/-- buildArray: consume count values, in stack order. -/
def buildArray (svm : VMState) (count : Nat) : Obj × VMState :=
  let (objs, s1) := svm.popN count
  (Obj.arrayObj objs, s1)

/-- Pair-popping loop of buildHash: each iteration pops the key (the map
index expression, evaluated first) and then the value. -/
def popPairs (svm : VMState) : Nat → List (Obj × Obj) × VMState
  | 0 => ([], svm)
  | n + 1 =>
      let (k, s1) := svm.pop
      let (v, s2) := s1.pop
      let (rest, s3) := popPairs s2 n
      ((k, v) :: rest, s3)

/-- HashKey-conversion loop of buildHash: an unhashable key is an error
naming its type; later bindings of an equal HashKey overwrite earlier
ones.  (Go first collects the pairs in a pointer-keyed map and then
iterates it in unspecified order; with distinct keys the result is the
same.) -/
def buildHashElems : List (Obj × Obj) → List (HashKey × Obj) →
    Except VMErr (List (HashKey × Obj))
  | [], acc => .ok acc
  | (k, v) :: rest, acc =>
      match hashKeyOf k with
      | some hk => buildHashElems rest (hkSet acc hk v)
      | none =>
          match k.typeOf with
          | some t => .error (.fail ("key type " ++ t.goName ++ " is not hashable"))
          | none => .error (.goPanic "nil Type()")

def buildHash (svm : VMState) (count : Nat) : Except VMErr (Obj × VMState) :=
  let (pairs, s1) := popPairs svm count
  match buildHashElems pairs [] with
  | .error e => .error e
  | .ok elems => .ok (Obj.hashObj elems, s1)

/-- evalArrayIndexExpression (vm.go): integer index, bounds-checked. -/
def evalArrayIndexExpression (elems : List Obj) (index : Obj) :
    Except VMErr Obj :=
  match index with
  | .integer idx =>
      if idx < 0 ∨ idx ≥ (elems.length : Int) then
        .error (.fail ("index " ++ toString idx ++ " out of bounds for arr length "
          ++ toString elems.length))
      else .ok (elems.getD idx.toNat Obj.goNil)
  | _ => .error (.fail "index must be an integer for index expression in arrays")

/-- evalHashIndexExpression (vm.go): unhashable key errors; a missing key
yields NULL, not an error. -/
def evalHashIndexExpression (pairs : List (HashKey × Obj)) (index : Obj) :
    Except VMErr Obj :=
  match hashKeyOf index with
  | some hk =>
      match hkGet pairs hk with
      | some val => .ok val
      | none => .ok NULL
  | none =>
      match index.typeOf with
      | some t => .error (.fail ("key type " ++ t.goName ++ " is not hashable"))
      | none => .error (.goPanic "nil Type()")

def evalIndexExpression (iterable index : Obj) : Except VMErr Obj :=
  match iterable with
  | .arrayObj elems => evalArrayIndexExpression elems index
  | .hashObj pairs => evalHashIndexExpression pairs index
  | .goNil => .error (.goPanic "nil Type()")
  | _ =>
      .error (.fail ("index expression not supported for type: "
        ++ ((iterable.typeOf).map ObjType.goName).getD ""))

/-- Single iteration of Run's fetch-decode-execute loop (the body of the
Go for-loop).  The active frame is the head of the frame list; the opcode
is fetched at its ip.  Operand bytes are read with a default of 0 (a
truncated instruction stream would be a Go slice panic; compiler output
never truncates).  Every push inside the loop discards push's error
return, exactly as the call sites in Run do. -/
def step (svm : VMState) : Except VMErr VMState :=
  match svm.frames with
  | [] => .error (.goPanic "no active frame")
  | activeFrame :: restFrames =>
    let ins := activeFrame.instructions
    let ip := activeFrame.ip
    let opcode := ins.getD ip 0
    if opcode = OpPush then
      let idx := readU16 ins (ip + 1)
      match svm.constantPool.get? idx with
      | none => .error (.goPanic "index out of range")
      | some obj => .ok ((svm.pushDrop obj).withHeadIp (ip + 3))
    else if opcode = OpPushTrue then
      .ok ((svm.pushDrop TRUE).withHeadIp (ip + 1))
    else if opcode = OpPushFalse then
      .ok ((svm.pushDrop FALSE).withHeadIp (ip + 1))
    else if opcode = OpPushNull then
      .ok ((svm.pushDrop NULL).withHeadIp (ip + 1))
    else if opcode = OpAdd ∨ opcode = OpSub ∨ opcode = OpMul ∨
            opcode = OpDiv ∨ opcode = OpEqual ∨ opcode = OpNotEqual ∨
            opcode = OpGT then
      match executeBinaryOperation svm opcode with
      | .error e => .error e
      | .ok s1 => .ok (s1.withHeadIp (ip + 1))
    else if opcode = OpNegateBoolean ∨ opcode = OpNegateNumber then
      match executeUnaryOperation svm opcode with
      | .error e => .error e
      | .ok s1 => .ok (s1.withHeadIp (ip + 1))
    else if opcode = OpJumpIfFalse then
      let jumpTo := readU16 ins (ip + 1)
      if IsTruthy svm.top = false then .ok (svm.withHeadIp jumpTo)
      else .ok (svm.withHeadIp (ip + 3))
    else if opcode = OpJump then
      .ok (svm.withHeadIp (readU16 ins (ip + 1)))
    else if opcode = OpSetLocal then
      let idx := readU16 ins (ip + 1)
      let localBindingsStackIdx := activeFrame.bp + 1 + idx
      let (obj, s1) := svm.pop
      if localBindingsStackIdx ≥ StackSize then
        .error (.goPanic "index out of range")
      else
        .ok (VMState.withHeadIp
          { s1 with stack := fun j =>
              if j = localBindingsStackIdx then obj else s1.stack j }
          (ip + 3))
    else if opcode = OpSetGlobal then
      let idx := readU16 ins (ip + 1)
      let (obj, s1) := svm.pop
      .ok (VMState.withHeadIp
        { s1 with globals := fun j => if j = idx then obj else s1.globals j }
        (ip + 3))
    else if opcode = OpGetLocal then
      let idx := readU16 ins (ip + 1)
      let localBindingsStackIdx := activeFrame.bp + 1 + idx
      if localBindingsStackIdx ≥ StackSize then
        .error (.goPanic "index out of range")
      else
        .ok ((svm.pushDrop (svm.stack localBindingsStackIdx)).withHeadIp (ip + 3))
    else if opcode = OpGetGlobal then
      let idx := readU16 ins (ip + 1)
      .ok ((svm.pushDrop (svm.globals idx)).withHeadIp (ip + 3))
    else if opcode = OpGetBuiltIn then
      let idx := ins.getD (ip + 1) 0
      match builtinNames.get? idx with
      | none => .error (.goPanic "index out of range")
      | some name => .ok ((svm.pushDrop (.builtinFn name)).withHeadIp (ip + 2))
    else if opcode = OpGetFree then
      let idx := ins.getD (ip + 1) 0
      match activeFrame.closureFree.get? idx with
      | none => .error (.goPanic "index out of range")
      | some obj => .ok ((svm.pushDrop obj).withHeadIp (ip + 2))
    else if opcode = OpArray then
      let count := readU16 ins (ip + 1)
      let (arr, s1) := buildArray svm count
      .ok ((s1.pushDrop arr).withHeadIp (ip + 3))
    else if opcode = OpHash then
      let count := readU16 ins (ip + 1)
      match buildHash svm count with
      | .error e => .error e
      | .ok (hash, s1) => .ok ((s1.pushDrop hash).withHeadIp (ip + 3))
    else if opcode = OpIndex then
      let (idxObj, s1) := svm.pop
      let (iterable, s2) := s1.pop
      match evalIndexExpression iterable idxObj with
      | .error e => .error e
      | .ok obj => .ok ((s2.pushDrop obj).withHeadIp (ip + 1))
    else if opcode = OpClosure then
      let idx := readU16 ins (ip + 1)
      match svm.constantPool.get? idx with
      | none => .error (.goPanic "index out of range")
      | some c =>
        match c with
        | .compiledFunction compiledFn =>
            let freeCount := ins.getD (ip + 3) 0
            let (freeStore, s1) := svm.popN freeCount
            .ok ((s1.pushDrop (.closure compiledFn freeStore)).withHeadIp (ip + 4))
        | _ => .error (.goPanic "interface conversion")
    else if opcode = OpCall then
      let argsCount := ins.getD (ip + 1) 0
      if svm.sp < 1 + argsCount then .error (.goPanic "index out of range")
      else
        match svm.stack (svm.sp - 1 - argsCount) with
        | .closure closFn closFree =>
            if svm.frames.length ≥ FramesSize then
              .error (.goPanic "index out of range")
            else
              .ok { svm with
                      frames := ⟨closFn, closFree, 0, svm.sp - 1 - argsCount⟩ ::
                        { activeFrame with ip := ip + 2 } :: restFrames,
                      sp := svm.sp + closFn.numLocals }
        | .builtinFn name =>
            let (args, s1) := svm.popN argsCount
            let (_, s2) := s1.pop
            let obj := applyBuiltin name args
            match obj with
            | .errorObj msg => .error (.fail msg)
            | _ => .ok ((s2.pushDrop obj).withHeadIp (ip + 2))
        | fn => .error (.fail ("type: " ++ goTypeName fn ++ " not a callable object"))
    else if opcode = OpGetCurrentClosure then
      .ok ((svm.pushDrop (.closure activeFrame.closureFn activeFrame.closureFree)).withHeadIp
        (ip + 1))
    else if opcode = OpReturnValue then
      let (val, s1) := svm.pop
      let s2 := { s1 with sp := activeFrame.bp }
      let s3 := { s2 with frames := restFrames }
      .ok (s3.pushDrop val)
    else .error (.fail ("unknown opcode: " ++ toString opcode))

inductive RunResult where
  | finished (s : VMState)
  | failed (msg : String)
  | panicked (msg : String)
  | outOfFuel (s : VMState)

/-- Run's main loop: while the active frame's ip is inside its
instructions, execute one step; runtime errors abort with the error.
The fuel argument is a model artifact bounding the number of iterations
(the Go loop may not terminate); it plays no role in any single
iteration. -/
def runLoop : Nat → VMState → RunResult
  | 0, s => .outOfFuel s
  | fuel + 1, s =>
      match s.frames with
      | [] => .panicked "no active frame"
      | f :: _ =>
          if f.ip < f.instructions.length then
            match step s with
            | .ok s1 => runLoop fuel s1
            | .error (.fail m) => .failed m
            | .error (.goPanic m) => .panicked m
          else .finished s

/-- Run on a fresh VM over compiler output. -/
def Run (fuel : Nat) (instructions : List Nat) (constantPool : List Obj) :
    RunResult :=
  runLoop fuel (NewStackVM instructions constantPool)

/-- Top() of a final state, as the tests read results. -/
def RunResult.topValue : RunResult → Option Obj
  | .finished s => some s.top
  | _ => none

end Vm

/-! ## AST Walker (ast package)

Walker walks the AST bottom-up: children are rewritten first, then the
modifier is applied to the rebuilt node.  Only the node kinds listed in
the Go switch are traversed; everything else (return statements, array,
hash and index expressions, identifiers, literals) receives the modifier
directly without its children being walked.  A nil input node is returned
untouched without calling the modifier.  The Go modifier mutates the
environment it captured, so the modifier here receives and returns the
environment; `none` is the fuel-exhaustion artifact of the modifiers
defined below.  Function-literal parameters are walked as identifier
nodes; a modifier result that is no longer an identifier would be a Go
type-assertion panic (the parameter name is kept in that unreachable
case), and the rebuilt function literal drops the Name field, exactly as
the Go code rebuilds it without Name. -/

mutual

def Walker : Nat → (Node → Env → Option (Except String (Node × Env))) →
    Node → Env → Option (Except String (Node × Env))
  | 0, _, _, _ => none
  | _ + 1, _, .nilNode, env => some (.ok (.nilNode, env))
  | fuel + 1, modifier, .program stmts, env =>
      match WalkerStmts fuel modifier stmts env with
      | none => none
      | some (.error e) => some (.error e)
      | some (.ok (newStmts, env1)) => modifier (.program newStmts) env1
  | fuel + 1, modifier, .letStmt name right, env =>
      match Walker fuel modifier right env with
      | none => none
      | some (.error e) => some (.error e)
      | some (.ok (mRight, env1)) => modifier (.letStmt name mRight) env1
  | fuel + 1, modifier, .exprStmt e, env =>
      match Walker fuel modifier e env with
      | none => none
      | some (.error err) => some (.error err)
      | some (.ok (mExpr, env1)) => modifier (.exprStmt mExpr) env1
  | fuel + 1, modifier, .prefixExp op right, env =>
      match Walker fuel modifier right env with
      | none => none
      | some (.error e) => some (.error e)
      | some (.ok (mRight, env1)) => modifier (.prefixExp op mRight) env1
  | fuel + 1, modifier, .infixExp left op right, env =>
      match Walker fuel modifier left env with
      | none => none
      | some (.error e) => some (.error e)
      | some (.ok (mLeft, env1)) =>
        match Walker fuel modifier right env1 with
        | none => none
        | some (.error e) => some (.error e)
        | some (.ok (mRight, env2)) =>
            modifier (.infixExp mLeft op mRight) env2
  | fuel + 1, modifier, .callExp fn args, env =>
      match Walker fuel modifier fn env with
      | none => none
      | some (.error e) => some (.error e)
      | some (.ok (mFunc, env1)) =>
        match WalkerArgs fuel modifier args env1 with
        | none => none
        | some (.error e) => some (.error e)
        | some (.ok (mArgs, env2)) => modifier (.callExp mFunc mArgs) env2
  | fuel + 1, modifier, .fnLit params body _, env =>
      match WalkerParams fuel modifier params env with
      | none => none
      | some (.error e) => some (.error e)
      | some (.ok (mParams, env1)) =>
        match Walker fuel modifier body env1 with
        | none => none
        | some (.error e) => some (.error e)
        | some (.ok (mBody, env2)) =>
            modifier (.fnLit mParams mBody "") env2
  | fuel + 1, modifier, .ifElse cond cons alt, env =>
      match Walker fuel modifier cond env with
      | none => none
      | some (.error e) => some (.error e)
      | some (.ok (mCondition, env1)) =>
        match Walker fuel modifier cons env1 with
        | none => none
        | some (.error e) => some (.error e)
        | some (.ok (mConsequence, env2)) =>
          match alt with
          | none => modifier (.ifElse mCondition mConsequence none) env2
          | some a =>
            match Walker fuel modifier a env2 with
            | none => none
            | some (.error e) => some (.error e)
            | some (.ok (mAlternative, env3)) =>
                modifier (.ifElse mCondition mConsequence (some mAlternative)) env3
  | fuel + 1, modifier, .blockStmt stmts, env =>
      match WalkerStmts fuel modifier stmts env with
      | none => none
      | some (.error e) => some (.error e)
      | some (.ok (newStmts, env1)) => modifier (.blockStmt newStmts) env1
  | _ + 1, modifier, n, env => modifier n env

/-- Statement loop of Walker's Program and BlockStatement cases: a
modifier result that is the nil node is elided from the output. -/
def WalkerStmts : Nat → (Node → Env → Option (Except String (Node × Env))) →
    List Node → Env → Option (Except String (List Node × Env))
  | 0, _, _, _ => none
  | _ + 1, _, [], env => some (.ok ([], env))
  | fuel + 1, modifier, stmt :: rest, env =>
      match Walker fuel modifier stmt env with
      | none => none
      | some (.error e) => some (.error e)
      | some (.ok (mStmt, env1)) =>
        match WalkerStmts fuel modifier rest env1 with
        | none => none
        | some (.error e) => some (.error e)
        | some (.ok (mRest, env2)) =>
          match mStmt with
          | .nilNode => some (.ok (mRest, env2))
          | _ => some (.ok (mStmt :: mRest, env2))

def WalkerArgs : Nat → (Node → Env → Option (Except String (Node × Env))) →
    List Node → Env → Option (Except String (List Node × Env))
  | 0, _, _, _ => none
  | _ + 1, _, [], env => some (.ok ([], env))
  | fuel + 1, modifier, arg :: rest, env =>
      match Walker fuel modifier arg env with
      | none => none
      | some (.error e) => some (.error e)
      | some (.ok (mArg, env1)) =>
        match WalkerArgs fuel modifier rest env1 with
        | none => none
        | some (.error e) => some (.error e)
        | some (.ok (mRest, env2)) => some (.ok (mArg :: mRest, env2))

def WalkerParams : Nat → (Node → Env → Option (Except String (Node × Env))) →
    List String → Env → Option (Except String (List String × Env))
  | 0, _, _, _ => none
  | _ + 1, _, [], env => some (.ok ([], env))
  | fuel + 1, modifier, p :: rest, env =>
      match Walker fuel modifier (.identifier p) env with
      | none => none
      | some (.error e) => some (.error e)
      | some (.ok (mParam, env1)) =>
        match WalkerParams fuel modifier rest env1 with
        | none => none
        | some (.error e) => some (.error e)
        | some (.ok (mRest, env2)) =>
          match mParam with
          | .identifier v => some (.ok (v :: mRest, env2))
          | _ => some (.ok (p :: mRest, env2))

end

/-! ## Tree-walking evaluator (evaluator/evaluator.go, yal version)

Eval is fuel-indexed (`none` = fuel exhausted, a model artifact: with
enough fuel the result matches the Go evaluator, which may also diverge).
Eval returns the result object together with the updated environment —
in Go the environment is mutated in place by let statements. -/

namespace Evaluator

def NewError (message : String) : Obj := .errorObj message

def typeNameOf (obj : Obj) : String :=
  ((obj.typeOf).map ObjType.goName).getD "<nil>"

def evalMinusPrefixExpression (right : Obj) : Obj :=
  match right with
  | .integer i => .integer (wrap64 (-i))
  | _ =>
      NewError ("Invalid type " ++ typeNameOf right ++ " with operator "
        ++ sq ++ "-" ++ sq)

def evalBangPrefixExpression (right : Obj) : Obj :=
  if IsTruthy right then FALSE else TRUE

def evalPrefixExpression (operator : String) (right : Obj) : Obj :=
  if operator = "-" then evalMinusPrefixExpression right
  else if operator = "!" then evalBangPrefixExpression right
  else NewError ("Unknown operator: " ++ operator)

def evalPlusInfixExpression (left right : Obj) : Obj :=
  match left with
  | .integer l =>
      match right with
      | .integer r => .integer (wrap64 (l + r))
      | _ => NULL
  | .strObj l =>
      match right with
      | .strObj r => .strObj (l ++ r)
      | _ => NULL
  | _ =>
      NewError ("unsupported operand type " ++ typeNameOf left ++ " with "
        ++ sq ++ "+" ++ sq)

def evalMinusInfixExpression (left right : Obj) : Obj :=
  match left, right with
  | .integer l, .integer r => .integer (wrap64 (l - r))
  | _, _ => NULL

def evalAsteriskInfixExpression (left right : Obj) : Obj :=
  match left, right with
  | .integer l, .integer r => .integer (wrap64 (l * r))
  | _, _ => NULL

def evalSlashInfixExpression (left right : Obj) : Obj :=
  match left, right with
  | .integer l, .integer r =>
      if r = 0 then NewError "Division by zero"
      else .integer (wrap64 (l.tdiv r))
  | _, _ => NULL

/-- Equality in the tree-walking evaluator: Integers and Strings by
value, Booleans by identity of the singletons; other types (Null
included) yield NULL. -/
def evalEqualsInfixExpression (left right : Obj) : Obj :=
  match left with
  | .integer l =>
      match right with
      | .integer r => getBooleanObject (decide (l = r))
      | _ => getBooleanObject false
  | .strObj l =>
      match right with
      | .strObj r => getBooleanObject (decide (l = r))
      | _ => getBooleanObject false
  | .boolean l =>
      match right with
      | .boolean r => getBooleanObject (decide (l = r))
      | _ => getBooleanObject false
  | _ => NULL

def evalNotEqualsInfixExpression (left right : Obj) : Obj :=
  let obj := evalEqualsInfixExpression left right
  if IsNull obj then NULL
  else
    match obj with
    | .boolean b => getBooleanObject (!b)
    | _ => NULL

def evalLTInfixExpression (left right : Obj) : Obj :=
  match left, right with
  | .integer l, .integer r => getBooleanObject (decide (l < r))
  | _, _ => NULL

def evalGTInfixExpression (left right : Obj) : Obj :=
  match left, right with
  | .integer l, .integer r => getBooleanObject (decide (l > r))
  | _, _ => NULL

def evalInfixExpression (operator : String) (left right : Obj) : Obj :=
  if left.typeOf ≠ right.typeOf then
    NewError ("Incompatible types: " ++ typeNameOf left ++ " and "
      ++ typeNameOf right)
  else if operator = "+" then evalPlusInfixExpression left right
  else if operator = "-" then evalMinusInfixExpression left right
  else if operator = "*" then evalAsteriskInfixExpression left right
  else if operator = "/" then evalSlashInfixExpression left right
  else if operator = "==" then evalEqualsInfixExpression left right
  else if operator = "!=" then evalNotEqualsInfixExpression left right
  else if operator = "<" then evalLTInfixExpression left right
  else if operator = ">" then evalGTInfixExpression left right
  else NULL

def evalArrayIndexExpression (elems : List Obj) (index : Obj) : Obj :=
  match index with
  | .integer idx =>
      if idx < 0 ∨ idx ≥ (elems.length : Int) then
        NewError ("index out of bounds for arr length " ++ toString elems.length)
      else elems.getD idx.toNat Obj.goNil
  | _ => NewError "index must be an integer for index expression in arrays"

def evalHashIndexExpression (pairs : List (HashKey × Obj)) (index : Obj) : Obj :=
  match hashKeyOf index with
  | some hk =>
      match hkGet pairs hk with
      | some val => val
      | none => NULL
  | none => NewError ("key type " ++ typeNameOf index ++ " is not hashable")

def evalIndexExpression (iterable index : Obj) : Obj :=
  match iterable with
  | .arrayObj elems => evalArrayIndexExpression elems index
  | .hashObj pairs => evalHashIndexExpression pairs index
  | _ =>
      NewError ("index expression not supported for type: " ++ typeNameOf iterable)

/-- evalHashLiteral: convert evaluated key/value pairs to HashKey
bindings, erroring on an unhashable key. -/
def evalHashLiteral : List (Obj × Obj) → List (HashKey × Obj) → Obj
  | [], acc => .hashObj acc
  | (k, v) :: rest, acc =>
      match hashKeyOf k with
      | some hk => evalHashLiteral rest (hkSet acc hk v)
      | none => NewError ("key type " ++ typeNameOf k ++ " is not hashable")

/-- objToNode: Integer becomes an integer literal, a Quote carries its
node, anything else becomes a nil node. -/
def objToNode : Obj → Node
  | .integer v => .intLit v
  | .quoteObj node => node
  | _ => .nilNode

def bindParams (env : Env) : List String → List Obj → Env
  | [], _ => env
  | _, [] => env
  | p :: ps, a :: as_ => bindParams (env.set p a) ps as_

mutual

/-- Eval from evaluator/evaluator.go.  A let statement evaluates to the
Go nil result; unknown node kinds are the default-branch error. -/
def Eval : Nat → Node → Env → Option (Obj × Env)
  | 0, _, _ => none
  | fuel + 1, node, env =>
    match node with
    | .program stmts => evalProgramStmts fuel stmts env Obj.goNil
    | .blockStmt stmts => evalBlockStmts fuel stmts env Obj.goNil
    | .returnStmt v =>
        match Eval fuel v env with
        | none => none
        | some (obj, env1) =>
            if IsErrorValue obj then some (obj, env1)
            else some (.returnValue obj, env1)
    | .exprStmt e => Eval fuel e env
    | .intLit v => some (.integer v, env)
    | .strLit s => some (.strObj s, env)
    | .boolLit b => some (getBooleanObject b, env)
    | .arrayLit elems =>
        match evalElemsList fuel elems env with
        | none => none
        | some (.error errObj, env1) => some (errObj, env1)
        | some (.ok objs, env1) => some (.arrayObj objs, env1)
    | .hashLit pairs =>
        match evalHashPairs fuel pairs env with
        | none => none
        | some (.error errObj, env1) => some (errObj, env1)
        | some (.ok objPairs, env1) => some (evalHashLiteral objPairs [], env1)
    | .fnLit params body _ => some (.functionObj env params body, env)
    | .callExp fn args =>
        if tokenLiteral fn = "quote" then
          match args with
          | [arg] => quoteF fuel arg env
          | _ => some (NewError "quote supports only 1 argument", env)
        else
          match Eval fuel fn env with
          | none => none
          | some (fnObj, env1) =>
            if IsErrorValue fnObj then some (fnObj, env1)
            else
              match fnObj with
              | .macroObj _ _ _ =>
                  let quotedArgs := args.map (fun a => Obj.quoteObj a)
                  match evalCallExpression fuel fnObj quotedArgs with
                  | none => none
                  | some result => some (result, env1)
              | _ =>
                  match evalArgsList fuel args env1 with
                  | none => none
                  | some (.error errObj, env2) => some (errObj, env2)
                  | some (.ok argObjs, env2) =>
                      match evalCallExpression fuel fnObj argObjs with
                      | none => none
                      | some result => some (result, env2)
    | .indexExp left index =>
        match Eval fuel left env with
        | none => none
        | some (iterable, env1) =>
          if IsErrorValue iterable then some (iterable, env1)
          else
            match Eval fuel index env1 with
            | none => none
            | some (idx, env2) =>
              if IsErrorValue idx then some (idx, env2)
              else some (evalIndexExpression iterable idx, env2)
    | .prefixExp op right =>
        match Eval fuel right env with
        | none => none
        | some (operand, env1) =>
          if IsErrorValue operand then some (operand, env1)
          else some (evalPrefixExpression op operand, env1)
    | .infixExp left op right =>
        match Eval fuel left env with
        | none => none
        | some (leftObj, env1) =>
          if IsErrorValue leftObj then some (leftObj, env1)
          else
            match Eval fuel right env1 with
            | none => none
            | some (rightObj, env2) =>
              if IsErrorValue rightObj then some (rightObj, env2)
              else some (evalInfixExpression op leftObj rightObj, env2)
    | .ifElse cond cons alt =>
        match Eval fuel cond env with
        | none => none
        | some (conditionObj, env1) =>
          if IsErrorValue conditionObj then some (conditionObj, env1)
          else if IsTruthy conditionObj then Eval fuel cons env1
          else
            match alt with
            | some a => Eval fuel a env1
            | none => some (NULL, env1)
    | .letStmt name right =>
        match Eval fuel right env with
        | none => none
        | some (rightObj, env1) =>
          if IsErrorValue rightObj then some (rightObj, env1)
          else some (Obj.goNil, env1.set name rightObj)
    | .identifier v => some (env.get v, env)
    | .macroLit _ _ =>
        some (NewError "Unknown statement type: *ast.MacroLiteral", env)
    | .nilNode => some (NewError "Unknown statement type: <nil>", env)

/-- Program statement loop: a ReturnValue result returns its unwrapped
value, an Error returns as is; otherwise the last result is kept. -/
def evalProgramStmts : Nat → List Node → Env → Obj → Option (Obj × Env)
  | _, [], env, result => some (result, env)
  | 0, _ :: _, _, _ => none
  | fuel + 1, stmt :: rest, env, _ =>
      match Eval fuel stmt env with
      | none => none
      | some (r, env1) =>
          if IsReturnValue r then
            match r with
            | .returnValue v => some (v, env1)
            | _ => some (r, env1)
          else if IsErrorValue r then some (r, env1)
          else evalProgramStmts fuel rest env1 r

/-- Block statement loop: ReturnValue and Error results return without
unwrapping. -/
def evalBlockStmts : Nat → List Node → Env → Obj → Option (Obj × Env)
  | _, [], env, result => some (result, env)
  | 0, _ :: _, _, _ => none
  | fuel + 1, stmt :: rest, env, _ =>
      match Eval fuel stmt env with
      | none => none
      | some (r, env1) =>
          if IsReturnValue r ∨ IsErrorValue r then some (r, env1)
          else evalBlockStmts fuel rest env1 r

def evalElemsList : Nat → List Node → Env →
    Option (Except Obj (List Obj) × Env)
  | _, [], env => some (.ok [], env)
  | 0, _ :: _, _ => none
  | fuel + 1, e :: rest, env =>
      match Eval fuel e env with
      | none => none
      | some (r, env1) =>
          if IsErrorValue r then some (.error r, env1)
          else
            match evalElemsList fuel rest env1 with
            | none => none
            | some (.error errObj, env2) => some (.error errObj, env2)
            | some (.ok objs, env2) => some (.ok (r :: objs), env2)

/-- Hash-literal pair loop: the key is evaluated first, then the value.
(Go iterates the pair map in unspecified order; the list order is the
model's determinization.) -/
def evalHashPairs : Nat → List (Node × Node) → Env →
    Option (Except Obj (List (Obj × Obj)) × Env)
  | _, [], env => some (.ok [], env)
  | 0, _ :: _, _ => none
  | fuel + 1, (k, v) :: rest, env =>
      match Eval fuel k env with
      | none => none
      | some (key, env1) =>
          if IsErrorValue key then some (.error key, env1)
          else
            match Eval fuel v env1 with
            | none => none
            | some (val, env2) =>
                if IsErrorValue val then some (.error val, env2)
                else
                  match evalHashPairs fuel rest env2 with
                  | none => none
                  | some (.error errObj, env3) => some (.error errObj, env3)
                  | some (.ok objPairs, env3) =>
                      some (.ok ((key, val) :: objPairs), env3)

def evalArgsList : Nat → List Node → Env →
    Option (Except Obj (List Obj) × Env)
  | _, [], env => some (.ok [], env)
  | 0, _ :: _, _ => none
  | fuel + 1, a :: rest, env =>
      match Eval fuel a env with
      | none => none
      | some (r, env1) =>
          if IsErrorValue r then some (.error r, env1)
          else
            match evalArgsList fuel rest env1 with
            | none => none
            | some (.error errObj, env2) => some (.error errObj, env2)
            | some (.ok objs, env2) => some (.ok (r :: objs), env2)

/-- evalCallExpression: functions and macros get a fresh environment
derived from their captured one, the parameters bound to the arguments
(a count mismatch is an error), the body evaluated and a ReturnValue
unwrapped; builtins apply the host function.  A non-callable object is
the default-branch error.  (A nil callee's Type() would be a Go panic;
modelled as the same error message with a nil tag, unreachable from
parser-produced programs.) -/
def evalCallExpression : Nat → Obj → List Obj → Option Obj
  | 0, _, _ => none
  | fuel + 1, function, args =>
    match function with
    | .functionObj fenv params body =>
        if params.length ≠ args.length then
          some (NewError ("expected " ++ toString params.length
            ++ " parameters, got " ++ toString args.length ++ " args"))
        else
          let extendedEnv := bindParams (NewEnvironment (some fenv)) params args
          match Eval fuel body extendedEnv with
          | none => none
          | some (result, _) =>
              match result with
              | .returnValue v => some v
              | _ => some result
    | .macroObj menv params body =>
        if params.length ≠ args.length then
          some (NewError ("expected " ++ toString params.length
            ++ " parameters, got " ++ toString args.length ++ " args"))
        else
          let extendedEnv := bindParams (NewEnvironment (some menv)) params args
          match Eval fuel body extendedEnv with
          | none => none
          | some (result, _) =>
              match result with
              | .returnValue v => some v
              | _ => some result
    | .builtinFn name => some (applyBuiltin name args)
    | _ =>
        some (NewError ("expected *object.Function, got " ++ typeNameOf function))

/-- quote(): sweep the quoted node for unquote() calls via the Walker,
evaluating each unquote argument and splicing the converted result back;
a sweep error becomes an Error value, otherwise the rewritten node is
wrapped in a Quote. -/
def quoteF : Nat → Node → Env → Option (Obj × Env)
  | 0, _, _ => none
  | fuel + 1, node, env =>
    match Walker fuel (fun n e =>
        match n with
        | .callExp (.identifier fname) cargs =>
            if fname = "unquote" then
              match cargs with
              | [carg] =>
                  match Eval fuel carg e with
                  | none => none
                  | some (obj, e1) =>
                      if IsErrorValue obj then
                        match obj with
                        | .errorObj msg => some (.error msg)
                        | _ => some (.error "")
                      else some (.ok (objToNode obj, e1))
              | _ => some (.error "unquote() supports only 1 argument")
            else some (.ok (n, e))
        | _ => some (.ok (n, e))) node env with
    | none => none
    | some (.error msg) => some (.errorObj msg, env)
    | some (.ok (node1, env1)) => some (.quoteObj node1, env1)

end

/-! ## Macro expansion (evaluator/macro.go) -/

def isMacroDefinition : Node → Bool
  | .letStmt _ (.macroLit _ _) => true
  | _ => false

def isMacroCallExpression (node : Node) (env : Env) : Bool :=
  match node with
  | .callExp (.identifier v) _ =>
      match env.get v with
      | .macroObj _ _ _ => true
      | _ => false
  | _ => false

/-- The modifier closure inside ExpandMacro.  A macro definition is
registered in the environment and elided from the AST (the Macro value
captures the environment; in Go it captures the pointer, so the macro can
later see itself — the pure model snapshots the environment just before
the insertion, which only differs for self-referential macros).  A call
whose callee resolves to a Macro is evaluated; an Error result aborts
expansion with the prefixed message; a Quote result's carried node
replaces the call site; any other result leaves the node unchanged. -/
def macroExpansionModifier (fuel : Nat) (node : Node) (env : Env) :
    Option (Except String (Node × Env)) :=
  if isMacroDefinition node then
    match node with
    | .letStmt name (.macroLit params body) =>
        some (.ok (.nilNode, env.set name (.macroObj env params body)))
    | _ => some (.ok (node, env))
  else if isMacroCallExpression node env then
    match Eval fuel node env with
    | none => none
    | some (obj, env1) =>
        if IsErrorValue obj then
          match obj with
          | .errorObj msg => some (.error ("macro expansion error: " ++ msg))
          | _ => some (.error "macro expansion error: ")
        else
          match obj with
          | .quoteObj quotedNode => some (.ok (quotedNode, env1))
          | _ => some (.ok (node, env1))
  else some (.ok (node, env))

/-- ExpandMacro from macro.go: walk the AST with the macro modifier. -/
def expandMacros (fuel : Nat) (prg : Node) (env : Env) :
    Option (Except String (Node × Env)) :=
  Walker fuel (macroExpansionModifier fuel) prg env

end Evaluator


/-! ## Claim theorems -/

/-! Shared association-list lemmas. -/

theorem assocGet_none_assocSet_length {α : Type} :
    ∀ (l : List (String × α)) (k : String) (v : α),
      assocGet l k = none → (assocSet l k v).length = l.length + 1 := by
  intro l k v
  induction l with
  | nil => intro _; simp [assocSet]
  | cons hd tl ih =>
      obtain ⟨k1, v1⟩ := hd
      intro h
      by_cases hk : k1 = k
      · simp [assocGet, hk] at h
      · simp only [assocGet, hk, if_neg, ite_false] at h
        simp [assocSet, hk, ih h]

theorem assocGet_assocSet_self {α : Type} :
    ∀ (l : List (String × α)) (k : String) (v : α),
      assocGet (assocSet l k v) k = some v := by
  intro l k v
  induction l with
  | nil => simp [assocSet, assocGet]
  | cons hd tl ih =>
      obtain ⟨k1, v1⟩ := hd
      by_cases hk : k1 = k
      · simp [assocSet, hk, assocGet]
      · simp [assocSet, hk, assocGet, ih]

/-! ### C1 — OpHash operand -/

def hashProgram1 : Node := .program [.exprStmt (.hashLit [(.intLit 1, .intLit 2)])]

def c1MidState : CompilerState :=
  match CompilePairs 2 [(Node.intLit 1, Node.intLit 2)] NewCompiler with
  | some (.ok st) => st
  | _ => NewCompiler

def c1VmState : VMState :=
  ((NewStackVM [] []).pushDrop (Obj.integer 2)).pushDrop (Obj.integer 1)

/-- Claim C1 as stated is false: for the hash literal with one pair the
compiler emits OpHash with u16 operand 1 (the number of pairs), not
2·1 = 2. -/
theorem c1_hash_operand_counterexample :
    (Compile 10 hashProgram1 NewCompiler).map (fun r => r.map fun st =>
        st.output.instructions)
      = some (.ok [OpPush, 0, 0, OpPush, 0, 1, OpHash, 0, 1])
    ∧ readU16 [OpPush, 0, 0, OpPush, 0, 1, OpHash, 0, 1] 7 = 1
    ∧ (1 : Nat) ≠ 2 * 1 :=
  ⟨by rfl, by rfl, by decide⟩

/-- Claim C1, amended: for a hash literal with n pairs the compiler emits
OpHash whose u16 operand is n (mod 2^16), the number of pairs; executing
the pair-popping loop of buildHash with operand count m consumes exactly
2·m operand-stack items (two per pair). -/
theorem c1_hash_operand_amended :
    (∀ (fuel : Nat) (pairs : List (Node × Node)) (st st1 : CompilerState),
        CompilePairs fuel pairs st = some (.ok st1) →
        Compile (fuel + 1) (.hashLit pairs) st
          = some (.ok (st1.emit OpHash [pairs.length])) ∧
        (st1.emit OpHash [pairs.length]).activeScope.instructions
          = st1.activeScope.instructions
            ++ [OpHash, pairs.length % 65536 / 256, pairs.length % 256])
    ∧ (∀ (svm : VMState) (count : Nat),
        2 * count ≤ svm.sp →
        (Vm.popPairs svm count).2.sp = svm.sp - 2 * count) := by
  constructor
  · intro fuel pairs st st1 h
    constructor
    · simp only [Compile, h]
    · simp [CompilerState.emit, Make, u16bytes, CompilerState.addInstruction,
        CompilerState.activeScope, CompilerState.setActiveScope,
        OpPush, OpJumpIfFalse, OpJump, OpSetGlobal, OpGetGlobal, OpArray,
        OpHash, OpSetLocal, OpGetLocal]
  · intro svm count
    induction count generalizing svm with
    | zero => intro _; simp [Vm.popPairs]
    | succ n ih =>
        intro h
        have h1 : ¬ svm.sp = 0 := by omega
        have h2 : ¬ svm.sp - 1 = 0 := by omega
        simp only [Vm.popPairs, VMState.pop, h1, h2, if_neg, ite_false]
        rw [ih]
        · dsimp only
          omega
        · dsimp only
          omega

theorem c1_hash_operand_amended_witness :
    (Compile 3 (.hashLit [(Node.intLit 1, Node.intLit 2)]) NewCompiler
        = some (.ok (c1MidState.emit OpHash [1]))
      ∧ (c1MidState.emit OpHash [1]).activeScope.instructions
          = c1MidState.activeScope.instructions ++ [OpHash, 0, 1])
    ∧ (Vm.popPairs c1VmState 1).2.sp = c1VmState.sp - 2 * 1 :=
  ⟨c1_hash_operand_amended.1 2 [(Node.intLit 1, Node.intLit 2)] NewCompiler
      c1MidState rfl,
   c1_hash_operand_amended.2 c1VmState 1 (by decide)⟩

/-! ### C2 — stack overflow not surfaced from Run -/

/-- Claim C2: the code contradicts it.  When sp has reached StackSize and
the next instruction pushes, push() does report "stack overflow", but
every call site in Run discards that report: the step succeeds with only
the ip advanced (the value dropped, sp unchanged), and the run loop keeps
going without surfacing any error. -/
theorem c2_stack_overflow_dropped :
    ∀ (s : VMState) (f : Frame) (rest : List Frame),
      s.frames = f :: rest →
      f.instructions.getD f.ip 0 = OpPushTrue →
      s.sp = StackSize →
      s.push TRUE = .error "stack overflow" ∧
      Vm.step s = .ok (s.withHeadIp (f.ip + 1)) ∧
      (s.withHeadIp (f.ip + 1)).sp = s.sp ∧
      (f.ip < f.instructions.length →
        ∀ fuel, Vm.runLoop (fuel + 1) s
          = Vm.runLoop fuel (s.withHeadIp (f.ip + 1))) := by
  intro s f rest hframes hop hsp
  have hpush : s.push TRUE = .error "stack overflow" := by
    unfold VMState.push
    rw [if_pos (le_of_eq hsp.symm)]
  have hstep : Vm.step s = .ok (s.withHeadIp (f.ip + 1)) := by
    unfold Vm.step
    rw [hframes]
    simp only [Frame.instructions] at hop
    simp only [Frame.instructions, hop, OpPush, OpPushTrue, VMState.pushDrop, hpush]
    norm_num
  refine ⟨hpush, hstep, ?_, ?_⟩
  · unfold VMState.withHeadIp
    rw [hframes]
  · intro hlt fuel
    conv_lhs => rw [Vm.runLoop]
    rw [hframes]
    simp only [Frame.instructions] at hlt
    simp only [Frame.instructions, hlt, if_pos, hstep]

def c2State : VMState := { NewStackVM [OpPushTrue] [] with sp := StackSize }

theorem c2_stack_overflow_dropped_witness :
    c2State.push TRUE = .error "stack overflow" ∧
    Vm.step c2State = .ok (c2State.withHeadIp 1) ∧
    (c2State.withHeadIp 1).sp = c2State.sp ∧
    Vm.runLoop 2 c2State = Vm.runLoop 1 (c2State.withHeadIp 1) :=
  have h := c2_stack_overflow_dropped c2State ⟨⟨[OpPushTrue], 0⟩, [], 0, 0⟩ []
    rfl rfl rfl
  ⟨h.1, h.2.1, h.2.2.1, h.2.2.2 (by decide) 1⟩

/-! ### C3 — SymbolTable.len counts promoted free symbols -/

/-- Definition following the claim's words: the count of locally stored
symbols whose scope is neither FREE nor BUILTIN. -/
def SymbolTable.specLen (t : SymbolTable) : Nat :=
  (t.store.filter (fun p =>
    match p.2.scope with
    | .free => false
    | .builtin => false
    | _ => true)).length

def nestedClosureProgram : Node := .program [.exprStmt
  (.fnLit ["x"] (.blockStmt [.exprStmt
    (.fnLit ["y"] (.blockStmt [.exprStmt
      (.infixExp (.identifier "x") "+" (.identifier "y"))]) "")]) "")]

def constNumLocals : Obj → Nat
  | .compiledFunction f => f.numLocals
  | _ => 0

def c3OuterTable : SymbolTable :=
  ((NewSymbolTable (some (NewSymbolTable none))).define "x").2

def c3InnerTable : SymbolTable :=
  (((NewSymbolTable (some c3OuterTable)).define "y").2.lookup "x").2

/-- Claim C3 as stated is false: for the inner function of
fn(x)\{ fn(y)\{ x + y \} \}, the body's lookup of x promotes a FREE symbol
into the inner store, so len() is 2 while the count of non-FREE
non-BUILTIN symbols is 1 — and the compiled inner function records
num_locals = 2, not 1. -/
theorem c3_symbol_len_counterexample :
    c3InnerTable.len = 2
    ∧ c3InnerTable.specLen = 1
    ∧ (Compile 30 nestedClosureProgram NewCompiler).map (fun r => r.map fun st =>
        st.constantPool.map constNumLocals) = some (.ok [2, 1])
    ∧ (2 : Nat) ≠ 1 :=
  ⟨by rfl, by rfl, by rfl, by decide⟩

/-- Claim C3, amended: len() returns the size of the local store, which
includes FREE symbols promoted by lookups (defineFree grows the store and
len by one, storing a FREE-scope symbol); builtin symbols never enter a
local store.  Consequently num_locals counts parameters, local
definitions, function-self entries and promoted free variables — for the
nested-closure program the inner function records num_locals =
c3InnerTable.len = 2. -/
theorem c3_symbol_len_amended :
    (∀ (t : SymbolTable) (sym : Symbol),
        assocGet t.store sym.name = none →
        (t.defineFree sym).2.len = t.len + 1 ∧
        (t.defineFree sym).1.scope = SymbolScope.free ∧
        assocGet (t.defineFree sym).2.store sym.name
          = some (t.defineFree sym).1)
    ∧ (∀ t : SymbolTable, t.len = t.store.length)
    ∧ (Compile 30 nestedClosureProgram NewCompiler).map (fun r => r.map fun st =>
        st.constantPool.map constNumLocals)
        = some (.ok [c3InnerTable.len, 1]) := by
  refine ⟨?_, fun t => rfl, by rfl⟩
  intro t sym h
  refine ⟨?_, rfl, ?_⟩
  · simp only [SymbolTable.defineFree, SymbolTable.len, SymbolTable.store]
    exact assocGet_none_assocSet_length t.store sym.name _ h
  · simp only [SymbolTable.defineFree, SymbolTable.store]
    exact assocGet_assocSet_self t.store sym.name _

theorem c3_symbol_len_amended_witness :
    ((NewSymbolTable none).defineFree ⟨"z", 0, .local⟩).2.len
        = (NewSymbolTable none).len + 1 ∧
    ((NewSymbolTable none).defineFree ⟨"z", 0, .local⟩).1.scope
        = SymbolScope.free ∧
    assocGet ((NewSymbolTable none).defineFree ⟨"z", 0, .local⟩).2.store "z"
        = some ((NewSymbolTable none).defineFree ⟨"z", 0, .local⟩).1 :=
  c3_symbol_len_amended.1 (NewSymbolTable none) ⟨"z", 0, .local⟩ rfl

/-! ### C4 — OpEqual on Null -/

/-- Claim C4 as stated is false at Null: running OpEqual on two NULL
operands is an unsupported-operand error from Run, not true. -/
theorem c4_null_equality_counterexample :
    Vm.Run 10 [OpPushNull, OpPushNull, OpEqual] []
      = .failed ("unsupported operand type NULL with " ++ sq ++ "==" ++ sq) := by
  rfl

/-- Claim C4, amended: OpEqual compares Integers and Strings by value and
Booleans by identity of the canonical singletons, pushing a Boolean
result; comparing Null with Null does not succeed — it is the
unsupported-operand error, not true. -/
theorem c4_equality_semantics_amended :
    (∀ (svm : VMState) (l r : Int),
        Vm.executeEqualsBinaryOperation svm (.integer l) (.integer r)
          = .ok (svm.pushDrop (getBooleanObject (decide (l = r)))))
    ∧ (∀ (svm : VMState) (l r : String),
        Vm.executeEqualsBinaryOperation svm (.strObj l) (.strObj r)
          = .ok (svm.pushDrop (getBooleanObject (decide (l = r)))))
    ∧ (∀ (svm : VMState) (l r : Bool),
        Vm.executeEqualsBinaryOperation svm (.boolean l) (.boolean r)
          = .ok (svm.pushDrop (getBooleanObject (decide (l = r)))))
    ∧ (∀ svm : VMState,
        Vm.executeEqualsBinaryOperation svm NULL NULL
          = .error (.fail ("unsupported operand type NULL with "
              ++ sq ++ "==" ++ sq))) :=
  ⟨fun _ _ _ => rfl, fun _ _ _ => rfl, fun _ _ _ => rfl, fun _ => rfl⟩


/-! ### C5 — call frame base pointer protocol -/

/-- Claim C5: on OpCall of a Closure with argc arguments the new frame is
pushed with base pointer = the caller's sp minus 1 minus argc (and sp is
advanced by the callee's local count); on OpReturnValue, sp is reset to
the returning frame's base pointer and the popped return value is then
pushed there, so sp ends at bp + 1 with the result on top of the caller's
stack and the callee and argument slots discarded. -/
theorem c5_call_frame_protocol :
    (∀ (s : VMState) (f : Frame) (rest : List Frame) (argc : Nat)
        (closFn : CompiledFn) (closFree : List Obj),
        s.frames = f :: rest →
        f.instructions.getD f.ip 0 = OpCall →
        f.instructions.getD (f.ip + 1) 0 = argc →
        1 + argc ≤ s.sp →
        s.frames.length < FramesSize →
        s.stack (s.sp - 1 - argc) = .closure closFn closFree →
        Vm.step s = .ok { s with
            frames := ⟨closFn, closFree, 0, s.sp - 1 - argc⟩ ::
              { f with ip := f.ip + 2 } :: rest,
            sp := s.sp + closFn.numLocals })
    ∧ (∀ (s : VMState) (f : Frame) (rest : List Frame),
        s.frames = f :: rest →
        f.instructions.getD f.ip 0 = OpReturnValue →
        1 ≤ s.sp →
        f.bp < StackSize →
        Vm.step s = .ok { s with
            frames := rest
            sp := f.bp + 1
            stack := (fun j => if j = f.bp then s.stack (s.sp - 1)
                               else s.stack j) } ∧
        VMState.top { s with
            frames := rest
            sp := f.bp + 1
            stack := (fun j => if j = f.bp then s.stack (s.sp - 1)
                               else s.stack j) } = s.stack (s.sp - 1)) := by
  constructor
  · intro s f rest argc closFn closFree hframes hop harg hsp hfr hstack
    rw [hframes] at hfr
    have hnlt : ¬ s.sp < 1 + argc := by omega
    unfold Vm.step
    rw [hframes]
    simp only [Frame.instructions] at hop harg
    simp only [Frame.instructions, hop, harg, OpPush, OpPushTrue, OpPushFalse,
      OpPushNull, OpAdd, OpSub, OpMul, OpDiv, OpEqual, OpNotEqual, OpGT,
      OpNegateBoolean, OpNegateNumber, OpJumpIfFalse, OpJump, OpSetLocal,
      OpSetGlobal, OpGetLocal, OpGetGlobal, OpGetBuiltIn, OpGetFree, OpArray,
      OpHash, OpIndex, OpClosure, OpCall]
    norm_num
    rw [if_neg hnlt, hstack]
    have hfr2 : ¬ FramesSize ≤ rest.length + 1 := by
      simp only [List.length_cons] at hfr
      omega
    simp only [hfr2, if_false, ite_false]
  · intro s f rest hframes hop hsp hbp
    have hne : ¬ s.sp = 0 := by omega
    constructor
    · unfold Vm.step
      rw [hframes]
      simp only [Frame.instructions] at hop
      simp only [Frame.instructions, hop, OpPush, OpPushTrue, OpPushFalse,
        OpPushNull, OpAdd, OpSub, OpMul, OpDiv, OpEqual, OpNotEqual, OpGT,
        OpNegateBoolean, OpNegateNumber, OpJumpIfFalse, OpJump, OpSetLocal,
        OpSetGlobal, OpGetLocal, OpGetGlobal, OpGetBuiltIn, OpGetFree, OpArray,
        OpHash, OpIndex, OpClosure, OpCall, OpGetCurrentClosure, OpReturnValue]
      norm_num
      simp only [VMState.pop, hne, if_neg, ite_false, VMState.pushDrop,
        VMState.push]
      rw [if_neg (by simpa using hbp.not_le)]
    · simp [VMState.top]

def c5CallState : VMState :=
  ((NewStackVM [OpCall, 1] []).pushDrop (Obj.closure ⟨[], 3⟩ [])).pushDrop
    (Obj.integer 7)

def c5MainFrame : Frame := ⟨⟨[], 0⟩, [], 0, 0⟩

def c5RetState : VMState :=
  { (NewStackVM [] []).pushDrop (Obj.integer 9) with
      frames := [⟨⟨[OpReturnValue], 0⟩, [], 0, 0⟩, c5MainFrame] }

theorem c5_call_frame_protocol_witness :
    Vm.step c5CallState = .ok { c5CallState with
        frames := [⟨⟨[], 3⟩, [], 0, 0⟩, ⟨⟨[OpCall, 1], 0⟩, [], 0 + 2, 0⟩]
        sp := c5CallState.sp + 3 } ∧
    (Vm.step c5RetState = .ok { c5RetState with
        frames := [c5MainFrame]
        sp := 0 + 1
        stack := (fun j => if j = 0 then c5RetState.stack (c5RetState.sp - 1)
                           else c5RetState.stack j) } ∧
     VMState.top { c5RetState with
        frames := [c5MainFrame]
        sp := 0 + 1
        stack := (fun j => if j = 0 then c5RetState.stack (c5RetState.sp - 1)
                           else c5RetState.stack j) }
       = c5RetState.stack (c5RetState.sp - 1)) :=
  ⟨c5_call_frame_protocol.1 c5CallState ⟨⟨[OpCall, 1], 0⟩, [], 0, 0⟩ [] 1
      ⟨[], 3⟩ [] rfl rfl rfl (by decide) (by decide) rfl,
   c5_call_frame_protocol.2 c5RetState ⟨⟨[OpReturnValue], 0⟩, [], 0, 0⟩
      [c5MainFrame] rfl rfl (by decide) (by decide)⟩

/-! ### C6 — OpJumpIfFalse peeks, never pops -/

/-- Claim C6: executing OpJumpIfFalse leaves the frame list structure, sp
and every stack slot unchanged — the tested value is peeked, not popped —
and only the ip moves: to the u16 target when the top is falsy, past the
3-byte instruction otherwise; the tested value remains on top in both
cases. -/
theorem c6_jump_if_false_peeks :
    ∀ (s : VMState) (f : Frame) (rest : List Frame),
      s.frames = f :: rest →
      f.instructions.getD f.ip 0 = OpJumpIfFalse →
      Vm.step s = .ok (s.withHeadIp
          (if IsTruthy s.top then f.ip + 3
           else readU16 f.instructions (f.ip + 1))) ∧
      (∀ ip2, (s.withHeadIp ip2).sp = s.sp ∧
              (s.withHeadIp ip2).stack = s.stack ∧
              (s.withHeadIp ip2).top = s.top) := by
  intro s f rest hframes hop
  constructor
  · unfold Vm.step
    rw [hframes]
    simp only [Frame.instructions] at hop
    simp only [Frame.instructions, hop, OpPush, OpPushTrue, OpPushFalse,
      OpPushNull, OpAdd, OpSub, OpMul, OpDiv, OpEqual, OpNotEqual, OpGT,
      OpNegateBoolean, OpNegateNumber, OpJumpIfFalse]
    norm_num
    by_cases ht : IsTruthy s.top
    · simp [ht]
    · simp [ht]
  · intro ip2
    unfold VMState.withHeadIp VMState.top
    rw [hframes]
    exact ⟨rfl, rfl, rfl⟩

def c6State : VMState := (NewStackVM [OpJumpIfFalse, 0, 9] []).pushDrop TRUE

theorem c6_jump_if_false_peeks_witness :
    Vm.step c6State = .ok (c6State.withHeadIp
        (if IsTruthy c6State.top then 0 + 3
         else readU16 [OpJumpIfFalse, 0, 9] (0 + 1))) ∧
    ((c6State.withHeadIp 3).sp = c6State.sp ∧
     (c6State.withHeadIp 3).stack = c6State.stack ∧
     (c6State.withHeadIp 3).top = c6State.top) :=
  have h := c6_jump_if_false_peeks c6State ⟨⟨[OpJumpIfFalse, 0, 9], 0⟩, [], 0, 0⟩
    [] rfl rfl
  ⟨h.1, h.2 3⟩


/-! ### C8 — canonicalization of < -/

def compileThenRun (fuelC fuelR : Nat) (e : Node) (st : CompilerState) :
    Option (Except String Vm.RunResult) :=
  (Compile fuelC e st).map (fun r => r.map (fun st1 =>
    Vm.Run fuelR st1.output.instructions st1.output.constantPool))

/-- Claim C8: the compiler canonicalizes a < b by compiling the right
operand, then the left operand, then emitting OpGT — the very bytecode of
b > a; compiling either expression from any compiler state is therefore
identical, and running the compiled output gives the same result, in
particular the same Boolean. -/
theorem c8_lt_canonicalization :
    (∀ (fuel : Nat) (a b : Node) (st : CompilerState),
        Compile fuel (.infixExp a "<" b) st
          = Compile fuel (.infixExp b ">" a) st)
    ∧ (∀ (fuelC fuelR : Nat) (a b : Node) (st : CompilerState),
        compileThenRun fuelC fuelR (.infixExp a "<" b) st
          = compileThenRun fuelC fuelR (.infixExp b ">" a) st) := by
  have hmain : ∀ (fuel : Nat) (a b : Node) (st : CompilerState),
      Compile fuel (.infixExp a "<" b) st
        = Compile fuel (.infixExp b ">" a) st := by
    intro fuel a b st
    cases fuel with
    | zero => rfl
    | succ n => rfl
  refine ⟨hmain, ?_⟩
  intro fuelC fuelR a b st
  unfold compileThenRun
  rw [hmain]

/-! ### C10 — OpIndex on hash miss vs array out of bounds -/

/-- Claim C10: OpIndex on a Hash with a hashable key absent from the hash
pushes the NULL singleton and the step succeeds without error (sp drops
by one net, NULL on top); OpIndex on an Array with an integer index
outside [0, length) is an index-out-of-bounds error which the run loop
surfaces as a failure from Run. -/
theorem c10_index_semantics :
    (∀ (s : VMState) (f : Frame) (rest : List Frame)
        (pairs : List (HashKey × Obj)) (keyObj : Obj) (hk : HashKey),
        s.frames = f :: rest →
        f.instructions.getD f.ip 0 = OpIndex →
        2 ≤ s.sp → s.sp ≤ StackSize →
        s.stack (s.sp - 1) = keyObj →
        s.stack (s.sp - 2) = .hashObj pairs →
        hashKeyOf keyObj = some hk →
        hkGet pairs hk = none →
        Vm.step s = .ok ((s.pop.2.pop.2.pushDrop NULL).withHeadIp (f.ip + 1)) ∧
        ((s.pop.2.pop.2.pushDrop NULL).withHeadIp (f.ip + 1)).top = NULL ∧
        ((s.pop.2.pop.2.pushDrop NULL).withHeadIp (f.ip + 1)).sp = s.sp - 1)
    ∧ (∀ (s : VMState) (f : Frame) (rest : List Frame)
        (elems : List Obj) (idx : Int) (fuel : Nat),
        s.frames = f :: rest →
        f.instructions.getD f.ip 0 = OpIndex →
        2 ≤ s.sp →
        s.stack (s.sp - 1) = .integer idx →
        s.stack (s.sp - 2) = .arrayObj elems →
        (idx < 0 ∨ (elems.length : Int) ≤ idx) →
        f.ip < f.instructions.length →
        Vm.step s = .error (.fail ("index " ++ toString idx
            ++ " out of bounds for arr length " ++ toString elems.length)) ∧
        Vm.runLoop (fuel + 1) s = .failed ("index " ++ toString idx
            ++ " out of bounds for arr length " ++ toString elems.length)) := by
  constructor
  · intro s f rest pairs keyObj hk hframes hop hsp hsp2 hkey hhash hhk hmiss
    have hne1 : ¬ s.sp = 0 := by omega
    have hne2 : ¬ s.sp - 1 = 0 := by omega
    have h21 : s.sp - 1 - 1 = s.sp - 2 := by omega
    have hstep : Vm.step s
        = .ok ((s.pop.2.pop.2.pushDrop NULL).withHeadIp (f.ip + 1)) := by
      unfold Vm.step
      rw [hframes]
      simp only [Frame.instructions] at hop
      simp only [Frame.instructions, hop, OpPush, OpPushTrue, OpPushFalse,
        OpPushNull, OpAdd, OpSub, OpMul, OpDiv, OpEqual, OpNotEqual, OpGT,
        OpNegateBoolean, OpNegateNumber, OpJumpIfFalse, OpJump, OpSetLocal,
        OpSetGlobal, OpGetLocal, OpGetGlobal, OpGetBuiltIn, OpGetFree, OpArray,
        OpHash, OpIndex]
      norm_num
      simp only [VMState.pop, hne1, hne2, if_neg, ite_false, h21, hkey, hhash,
        Vm.evalIndexExpression, Vm.evalHashIndexExpression, hhk, hmiss]
    have hlt2 : ¬ StackSize ≤ s.sp - 2 := by
      unfold StackSize at hsp2 ⊢
      omega
    have hpops : s.pop.2.pop.2 = { s with sp := s.sp - 2 } := by
      simp only [VMState.pop, hne1, hne2, if_neg, ite_false, h21]
    have hpush : VMState.pushDrop { s with sp := s.sp - 2 } NULL
        = { s with
            stack := fun j => if j = s.sp - 2 then NULL else s.stack j
            sp := s.sp - 2 + 1 } := by
      simp only [VMState.pushDrop, VMState.push, ge_iff_le, hlt2, if_neg,
        ite_false]
    refine ⟨hstep, ?_, ?_⟩
    · rw [hpops, hpush]
      unfold VMState.withHeadIp
      simp only []
      rw [hframes]
      simp only [VMState.top]
      norm_num
    · rw [hpops, hpush]
      unfold VMState.withHeadIp
      simp only []
      rw [hframes]
      simp only []
      omega
  · intro s f rest elems idx fuel hframes hop hsp hkey harr hoob hlt
    have hne1 : ¬ s.sp = 0 := by omega
    have hne2 : ¬ s.sp - 1 = 0 := by omega
    have h21 : s.sp - 1 - 1 = s.sp - 2 := by omega
    have hoob2 : idx < 0 ∨ idx ≥ (elems.length : Int) := by
      rcases hoob with h | h
      · exact Or.inl h
      · exact Or.inr h
    have hstep : Vm.step s = .error (.fail ("index " ++ toString idx
        ++ " out of bounds for arr length " ++ toString elems.length)) := by
      unfold Vm.step
      rw [hframes]
      simp only [Frame.instructions] at hop
      simp only [Frame.instructions, hop, OpPush, OpPushTrue, OpPushFalse,
        OpPushNull, OpAdd, OpSub, OpMul, OpDiv, OpEqual, OpNotEqual, OpGT,
        OpNegateBoolean, OpNegateNumber, OpJumpIfFalse, OpJump, OpSetLocal,
        OpSetGlobal, OpGetLocal, OpGetGlobal, OpGetBuiltIn, OpGetFree, OpArray,
        OpHash, OpIndex]
      norm_num
      simp only [VMState.pop, hne1, hne2, if_neg, ite_false, h21, hkey, harr,
        Vm.evalIndexExpression, Vm.evalArrayIndexExpression]
      rw [if_pos hoob2]
    refine ⟨hstep, ?_⟩
    conv_lhs => rw [Vm.runLoop]
    rw [hframes]
    simp only [Frame.instructions] at hlt
    simp only [Frame.instructions, hlt, if_pos, hstep]

def c10HashState : VMState :=
  ((NewStackVM [OpIndex] []).pushDrop
      (Obj.hashObj [(⟨.integerT, "1"⟩, Obj.integer 2)])).pushDrop
    (Obj.integer 3)

def c10ArrState : VMState :=
  ((NewStackVM [OpIndex] []).pushDrop
      (Obj.arrayObj [Obj.integer 1, Obj.integer 2])).pushDrop
    (Obj.integer 5)

theorem c10_index_semantics_witness :
    (Vm.step c10HashState
        = .ok ((c10HashState.pop.2.pop.2.pushDrop NULL).withHeadIp (0 + 1)) ∧
     ((c10HashState.pop.2.pop.2.pushDrop NULL).withHeadIp (0 + 1)).top = NULL ∧
     ((c10HashState.pop.2.pop.2.pushDrop NULL).withHeadIp (0 + 1)).sp
        = c10HashState.sp - 1)
    ∧ (Vm.step c10ArrState = .error (.fail ("index " ++ toString (5 : Int)
          ++ " out of bounds for arr length " ++ toString 2)) ∧
       Vm.runLoop 4 c10ArrState = .failed ("index " ++ toString (5 : Int)
          ++ " out of bounds for arr length " ++ toString 2)) :=
  ⟨c10_index_semantics.1 c10HashState ⟨⟨[OpIndex], 0⟩, [], 0, 0⟩ []
      [(⟨.integerT, "1"⟩, Obj.integer 2)] (Obj.integer 3) ⟨.integerT, "3"⟩
      rfl rfl (by decide) (by decide) rfl rfl rfl rfl,
   c10_index_semantics.2 c10ArrState ⟨⟨[OpIndex], 0⟩, [], 0, 0⟩ []
      [Obj.integer 1, Obj.integer 2] 5 3
      rfl rfl (by decide) rfl rfl (by decide) (by decide)⟩


open Evaluator

/-! ### C7 — macro expansion protocol -/

def c7Body : Node := .blockStmt [.exprStmt (.identifier "x")]

def c7Env : Env := Env.mk [("m", .macroObj (Env.mk [] none) ["x"] c7Body)] none

def c7Call : Node := .callExp (.identifier "m") [.intLit 7]

def c7ErrBody : Node := .blockStmt [.exprStmt (.identifier "zzz")]

def c7ErrEnv : Env := Env.mk [("m", .macroObj (Env.mk [] none) [] c7ErrBody)] none

def c7ErrCall : Node := .callExp (.identifier "m") []

/-- Claim C7: calling a macro passes each argument AST unevaluated,
wrapped as a Quote value, bound to the corresponding parameter in a fresh
environment derived from the macro's captured environment, and the call
evaluates to the body's result there (a ReturnValue unwrapped); at
expansion time a Quote result's carried AST replaces the call site, and
an Error result aborts expansion with the message prefixed by
"macro expansion error: ". -/
theorem c7_macro_expansion :
    (∀ (fuel : Nat) (fname : String) (args : List Node) (menv : Env)
        (params : List String) (body : Node) (env : Env),
        env.get fname = .macroObj menv params body →
        fname ≠ "quote" →
        params.length = args.length →
        Eval (fuel + 2) (.callExp (.identifier fname) args) env
          = match Eval fuel body (bindParams (NewEnvironment (some menv))
              params (args.map (fun a => Obj.quoteObj a))) with
            | none => none
            | some (result, _) =>
                some ((match result with
                       | .returnValue v => v
                       | _ => result), env))
    ∧ (∀ (fuel : Nat) (node : Node) (env : Env) (q : Node) (env1 : Env),
        isMacroCallExpression node env = true →
        Eval fuel node env = some (.quoteObj q, env1) →
        macroExpansionModifier fuel node env = some (.ok (q, env1)))
    ∧ (∀ (fuel : Nat) (node : Node) (env : Env) (msg : String) (env1 : Env),
        isMacroCallExpression node env = true →
        Eval fuel node env = some (.errorObj msg, env1) →
        macroExpansionModifier fuel node env
          = some (.error ("macro expansion error: " ++ msg))) := by
  refine ⟨?_, ?_, ?_⟩
  · intro fuel fname args menv params body env hget hq hlen
    have hlen2 : ¬ (params.length ≠ (args.map (fun a => Obj.quoteObj a)).length) := by
      simp [List.length_map, hlen]
    simp only [Eval, tokenLiteral]
    rw [if_neg hq]
    simp only [Eval, hget, IsErrorValue, Bool.false_eq_true, if_false,
      ite_false, evalCallExpression]
    rw [if_neg hlen2]
    cases hE : Eval fuel body (bindParams (NewEnvironment (some menv))
        params (args.map (fun a => Obj.quoteObj a))) with
    | none => simp only [hE]
    | some r =>
        obtain ⟨result, env2⟩ := r
        simp only [hE]
        cases result <;> rfl
  · intro fuel node env q env1 hcall hEval
    have hdef : isMacroDefinition node = false := by
      cases node <;> simp [isMacroCallExpression] at hcall <;> rfl
    unfold macroExpansionModifier
    simp only [hdef, hcall, Bool.false_eq_true, if_false, ite_false, if_true,
      ite_true]
    rw [hEval]
    rfl
  · intro fuel node env msg env1 hcall hEval
    have hdef : isMacroDefinition node = false := by
      cases node <;> simp [isMacroCallExpression] at hcall <;> rfl
    unfold macroExpansionModifier
    simp only [hdef, hcall, Bool.false_eq_true, if_false, ite_false, if_true,
      ite_true]
    rw [hEval]
    rfl

theorem c7_macro_expansion_witness :
    (Eval 12 c7Call c7Env = some (.quoteObj (.intLit 7), c7Env))
    ∧ (macroExpansionModifier 12 c7Call c7Env
        = some (.ok (.intLit 7, c7Env)))
    ∧ (macroExpansionModifier 12 c7ErrCall c7ErrEnv
        = some (.error ("macro expansion error: "
            ++ "Undefined variable \"zzz\""))) :=
  ⟨c7_macro_expansion.1 10 "m" [.intLit 7] (Env.mk [] none) ["x"] c7Body
      c7Env rfl (by decide) rfl,
   c7_macro_expansion.2.1 12 c7Call c7Env (.intLit 7) c7Env rfl rfl,
   c7_macro_expansion.2.2 12 c7ErrCall c7ErrEnv
      "Undefined variable \"zzz\"" c7ErrEnv rfl rfl⟩

def c9Env : Env :=
  Env.mk [("m", .macroObj (Env.mk [] none) []
    (.blockStmt [.exprStmt (.intLit 5)]))] none

/-! ### C9 — non-Quote, non-Error macro results -/

def c9Program : Node :=
  .program [.letStmt "m" (.macroLit [] (.blockStmt [.exprStmt (.intLit 5)])),
    .exprStmt (.callExp (.identifier "m") [])]

/-- Claim C9: if a macro body evaluates to a value that is neither a
Quote nor an Error, expansion does not fail: the modifier returns the
original call-expression node unchanged; end to end, a program calling a
macro whose body returns the plain Integer 5 expands to the same call
expression with no error. -/
theorem c9_non_quote_macro_result :
    (∀ (fuel : Nat) (node : Node) (env : Env) (obj : Obj) (env1 : Env),
        isMacroDefinition node = false →
        isMacroCallExpression node env = true →
        Eval fuel node env = some (obj, env1) →
        IsErrorValue obj = false →
        (∀ q, obj ≠ .quoteObj q) →
        macroExpansionModifier fuel node env = some (.ok (node, env1)))
    ∧ expandMacros 50 c9Program (NewEnvironment none)
        = some (.ok (.program [.exprStmt (.callExp (.identifier "m") [])],
            Env.mk [("m", .macroObj (Env.mk [] none) []
              (.blockStmt [.exprStmt (.intLit 5)]))] none)) := by
  constructor
  · intro fuel node env obj env1 hdef hcall hEval herr hq
    unfold macroExpansionModifier
    simp only [hdef, hcall, Bool.false_eq_true, if_false, ite_false, if_true,
      ite_true]
    rw [hEval]
    simp only [herr, Bool.false_eq_true, if_false, ite_false]
  · rfl

theorem c9_non_quote_macro_result_witness :
    macroExpansionModifier 12 (.callExp (.identifier "m") []) c9Env
      = some (.ok (.callExp (.identifier "m") [], c9Env)) :=
  c9_non_quote_macro_result.1 12 (.callExp (.identifier "m") []) c9Env
    (.integer 5) c9Env rfl rfl rfl rfl (fun q h => by cases h)

end Yal
